import Mathlib

/-!
# Verification of the RIFT-Continnum healing-pipeline specification

A shallow embedding, in Lean 4, of the parts of the repository that the
specification's claims talk about:

* `src/services/results_generator.py`  — score and results document,
* `src/services/langgraph_pipeline.py` — branch naming, failure parsing,
  the pipeline state machine, publishing,
* `src/services/bug_classifier.py`     — bug-kind classification,
* `src/services/git_service.py`        — cloning and token redaction,
* `src/services/github_app_service.py` — the credential broker.

Python strings are modelled as Lean `String`/`List Char` (the repository
only ever manipulates them at the character level); machine integers as
`Int`/`Nat`; wall-clock quantities as `ℚ`; network and subprocess
interactions as explicit oracle/environment parameters; fallible Python
code as `Except`/`Option`.  Every definition is executable.
-/

namespace RiftSpec

/- ════════════════════════════════════════════════════════════════
   §0  Python-style string helpers
   ════════════════════════════════════════════════════════════════ -/

/-- Python `str.isspace` characters relevant to `str.strip` / `\s`:
space, tab, newline, carriage return, vertical tab, form feed. -/
def pySpace (c : Char) : Bool :=
  c.toNat == 32 || c.toNat == 9 || c.toNat == 10 || c.toNat == 13 ||
  c.toNat == 11 || c.toNat == 12

/-- Python `str.strip()` on a character list. -/
def stripChars (l : List Char) : List Char :=
  ((l.dropWhile pySpace).reverse.dropWhile pySpace).reverse

/-- Python `str.strip()`. -/
def pyStrip (s : String) : String := String.mk (stripChars s.data)

/-- ASCII upper-casing of a single character (`str.upper`; the labels the
repository feeds through this are ASCII). -/
def upperChar (c : Char) : Char :=
  if 97 ≤ c.toNat ∧ c.toNat ≤ 122 then Char.ofNat (c.toNat - 32) else c

/-- ASCII lower-casing of a single character (`str.lower`). -/
def lowerChar (c : Char) : Char :=
  if 65 ≤ c.toNat ∧ c.toNat ≤ 90 then Char.ofNat (c.toNat + 32) else c

/-- Python `str.lower()` (ASCII fragment). -/
def pyLower (s : String) : String := String.mk (s.data.map lowerChar)

/-- Is `needle` a contiguous sublist of `hay`?  (Python `needle in hay`.) -/
def subListOf (needle : List Char) : List Char → Bool
  | [] => needle.isEmpty
  | c :: t => List.isPrefixOf needle (c :: t) || subListOf needle t

/-- Python `needle in hay` for strings. -/
def strContains (hay needle : String) : Bool := subListOf needle.data hay.data

/-- Case-insensitive containment (used for `re.I` literal alternatives). -/
def strContainsCI (hay needle : String) : Bool :=
  strContains (pyLower hay) (pyLower needle)

/-- Python `s[:n]` — character-based truncation (structural, so that
concrete instances evaluate inside the kernel). -/
def pyTake (s : String) (n : Nat) : String := String.mk (s.data.take n)

/-- Python `str.startswith`. -/
def pyStartsWith (s pre : String) : Bool := List.isPrefixOf pre.data s.data

/-- Python `str.endswith`. -/
def pyEndsWith (s suf : String) : Bool :=
  List.isPrefixOf suf.data.reverse s.data.reverse

/-- Fuelled worker for `pyReplace`: non-overlapping left-to-right
replacement of a non-empty pattern. -/
def replaceCharsGo (pat repl : List Char) : List Char → Nat → List Char
  | l, 0 => l
  | [], _ => []
  | c :: rest, fuel + 1 =>
    if List.isPrefixOf pat (c :: rest) then
      repl ++ replaceCharsGo pat repl ((c :: rest).drop pat.length) fuel
    else c :: replaceCharsGo pat repl rest fuel

/-- Python `str.replace(old, new)` for a non-empty `old` (the repository
only replaces tokens and URL prefixes, which are never empty). -/
def pyReplace (s pat repl : String) : String :=
  if pat.data.isEmpty then s
  else String.mk (replaceCharsGo pat.data repl.data s.data s.data.length)

/-- Split a character list at newline characters (every `'\n'` separates). -/
def splitOnNl : List Char → List (List Char)
  | [] => [[]]
  | c :: rest =>
    if c = '\n' then [] :: splitOnNl rest
    else
      match splitOnNl rest with
      | [] => [[c]]
      | h :: t => (c :: h) :: t

/-- Python `str.splitlines()` restricted to `'\n'` terminators:
`"" ↦ []`, a trailing newline does not produce a trailing empty line. -/
def splitLinesChars (l : List Char) : List (List Char) :=
  if l.isEmpty then []
  else
    let parts := splitOnNl l
    if l.getLast? = some '\n' then parts.dropLast else parts

/-- Python `str.splitlines()` (newline-only model). -/
def pySplitlines (s : String) : List String :=
  (splitLinesChars s.data).map String.mk

/-- Python `str.lstrip('/')`. -/
def lstripSlash (s : String) : String :=
  String.mk (s.data.dropWhile (· = '/'))

/-- Decimal digit test (`\d`). -/
def isDigitChar (c : Char) : Bool := 48 ≤ c.toNat && c.toNat ≤ 57

/-- Non-whitespace test (`\S`). -/
def nonSpace (c : Char) : Bool := !pySpace c

/-- `[A-Z0-9_]` membership — the character set the claim C5 names. -/
def isUpperDigitUnderscore (c : Char) : Bool :=
  (65 ≤ c.toNat && c.toNat ≤ 90) || (48 ≤ c.toNat && c.toNat ≤ 57) ||
  c.toNat == 95

/- ════════════════════════════════════════════════════════════════
   §1  `src/services/results_generator.py`
   ════════════════════════════════════════════════════════════════ -/

/-- The score-breakdown dictionary returned by `calculate_score`. -/
structure ScoreBreakdown where
  base : Int
  speed_bonus : Int
  efficiency_penalty : Int
  total_commits : Int
  final : Int
  deriving Repr, DecidableEq

/-- `calculate_score` (results_generator.py).  `total_failures` and
`total_fixes` are accepted and ignored exactly as in the source. -/
def calculate_score (total_time_seconds : ℚ) (total_commits : Int)
    (_total_failures _total_fixes : Nat) : ScoreBreakdown :=
  let base : Int := 100
  let speed_bonus : Int := if total_time_seconds < 300 then 10 else 0
  let extra_commits : Int := max 0 (total_commits - 20)
  let efficiency_penalty : Int := extra_commits * 2
  let final : Int := max 0 (base + speed_bonus - efficiency_penalty)
  { base := base, speed_bonus := speed_bonus,
    efficiency_penalty := efficiency_penalty,
    total_commits := total_commits, final := final }

/-- Python `int()` of a rational (truncation toward zero). -/
def pyIntOfRat (q : ℚ) : Int := if q < 0 then -((-q).floor) else q.floor

/-- `_format_duration_human` (results_generator.py): `"2m 45s"` style. -/
def format_duration_human (seconds : ℚ) : String :=
  let total := pyIntOfRat seconds
  let m := total.ediv 60
  let s := total.emod 60
  if 60 ≤ m then
    let h := m.ediv 60
    let m2 := m.emod 60
    toString h ++ "h " ++ toString m2 ++ "m " ++ toString s ++ "s"
  else if 0 < m then toString m ++ "m " ++ toString s ++ "s"
  else toString s ++ "s"

/-- A row of the `fixes` array of the results document. -/
structure FixRow where
  file : String
  bug_type : String
  line_number : Nat
  commit_message : String
  status : String
  deriving Repr, DecidableEq

/-- A timeline event `{state, details}` (timestamps elided: wall-clock
instants are outside the embedding). -/
structure TimelineEvent where
  state : String
  details : List (String × String)
  deriving Repr, DecidableEq

/-- The results document built by `build_results_json`
(`generated_at` elided, `total_time_seconds` kept unrounded). -/
structure ResultsDoc where
  repository : String
  team_name : String
  leader_name : String
  branch_name : String
  total_failures : Nat
  total_fixes : Nat
  iterations_used : Nat
  max_iterations : Nat
  final_status : String
  total_time : String
  total_time_seconds : ℚ
  score : ScoreBreakdown
  fixes : List FixRow
  timeline : List TimelineEvent
  deriving Repr

/-- `build_results_json` (results_generator.py). -/
def build_results_json (repository team_name leader_name branch_name : String)
    (total_failures total_fixes iterations_used max_iterations : Nat)
    (final_status : String) (total_time_seconds : ℚ) (total_commits : Nat)
    (fixes : List FixRow) (timeline : List TimelineEvent) : ResultsDoc :=
  { repository := repository, team_name := team_name,
    leader_name := leader_name, branch_name := branch_name,
    total_failures := total_failures, total_fixes := total_fixes,
    iterations_used := iterations_used, max_iterations := max_iterations,
    final_status := final_status,
    total_time := format_duration_human total_time_seconds,
    total_time_seconds := total_time_seconds,
    score := calculate_score total_time_seconds (Int.ofNat total_commits)
      total_failures total_fixes,
    fixes := fixes, timeline := timeline }

/- ════════════════════════════════════════════════════════════════
   §2  `make_branch_name` (langgraph_pipeline.py)
   ════════════════════════════════════════════════════════════════ -/

/-- `re.sub(r"\s+", "_", ·)`: every maximal whitespace run becomes one
underscore.  The boolean records whether the previous character was
inside a whitespace run. -/
def collapseWsAux : Bool → List Char → List Char
  | _, [] => []
  | prevWs, c :: t =>
    if pySpace c then
      if prevWs then collapseWsAux true t
      else '_' :: collapseWsAux true t
    else c :: collapseWsAux false t

/-- `re.sub(r"\s+", "_", ·)` on a character list. -/
def subWsUnderscore (l : List Char) : List Char := collapseWsAux false l

/-- `re.sub(r"[^A-Z0-9]", "_", ·)` acts per character. -/
def nonAlnumUnderscore (c : Char) : Char :=
  if (65 ≤ c.toNat ∧ c.toNat ≤ 90) ∨ (48 ≤ c.toNat ∧ c.toNat ≤ 57) then c
  else '_'

/-- The `sanitize` lambda of `make_branch_name`:
`re.sub(r"[^A-Z0-9]","_", re.sub(r"\s+","_", s.strip().upper()))`. -/
def sanitizeChars (l : List Char) : List Char :=
  (subWsUnderscore ((stripChars l).map upperChar)).map nonAlnumUnderscore

/-- `sanitize` on strings. -/
def sanitizeLabel (s : String) : String := String.mk (sanitizeChars s.data)

/-- `make_branch_name` (langgraph_pipeline.py line 123). -/
def make_branch_name (team leader : String) : String :=
  sanitizeLabel team ++ "_" ++ sanitizeLabel leader ++ "_AI_Fix"

/-- Alphanumeric test used by the claim's wording (`[A-Z0-9]` after
upper-casing). -/
def claimAlnum (c : Char) : Bool :=
  (65 ≤ c.toNat && c.toNat ≤ 90) || (48 ≤ c.toNat && c.toNat ≤ 57)

/-- Claim-side sanitization, following the claim's words (not the code):
uppercase, then replace every maximal run of non-alphanumeric characters
by a single underscore. -/
def claimCollapseAux : Bool → List Char → List Char
  | _, [] => []
  | prevBad, c :: t =>
    if claimAlnum c then c :: claimCollapseAux false t
    else if prevBad then claimCollapseAux true t
    else '_' :: claimCollapseAux true t

/-- Claim-side label derivation. -/
def claimSanitize (s : String) : String :=
  String.mk (claimCollapseAux false (s.data.map upperChar))

/-- Claim-side branch name: the two claim-sanitized labels joined as
`TEAM_LEADER_AI_Fix`. -/
def claimBranchName (team leader : String) : String :=
  claimSanitize team ++ "_" ++ claimSanitize leader ++ "_AI_Fix"

/- ════════════════════════════════════════════════════════════════
   §3  `src/services/bug_classifier.py`
   ════════════════════════════════════════════════════════════════ -/

/-- `_ERROR_TYPE_MAP` (bug_classifier.py).  The Python dict literal
repeats `SyntaxError` and `TypeError` with identical values; a first-match
association list is therefore equivalent. -/
def errorTypeMap : List (String × String) :=
  [("SyntaxError", "SYNTAX"), ("IndentationError", "INDENTATION"),
   ("TabError", "INDENTATION"), ("TypeError", "TYPE_ERROR"),
   ("ImportError", "IMPORT"), ("ModuleNotFoundError", "IMPORT"),
   ("NameError", "LOGIC"), ("AttributeError", "LOGIC"),
   ("ValueError", "LOGIC"), ("KeyError", "LOGIC"), ("IndexError", "LOGIC"),
   ("ZeroDivisionError", "LOGIC"), ("RuntimeError", "LOGIC"),
   ("AssertionError", "LOGIC"), ("UnboundLocalError", "LOGIC"),
   ("RecursionError", "LOGIC"), ("StopIteration", "LOGIC"),
   ("FileNotFoundError", "LOGIC"), ("PermissionError", "LOGIC"),
   ("OSError", "LOGIC"), ("IOError", "LOGIC"),
   ("ReferenceError", "LOGIC"), ("RangeError", "LOGIC"),
   ("URIError", "LOGIC"), ("EvalError", "LOGIC"),
   ("LintError", "LINTING"), ("StyleError", "LINTING"),
   ("TestFailure", "LOGIC"), ("TestSuiteFailure", "LOGIC")]

/-- `[EWCF]\d{3}` with `re.I`: some letter of `EWCFewcf` immediately
followed by three decimal digits. -/
def hasLintCode : List Char → Bool
  | a :: b :: c :: d :: rest =>
    ((lowerChar a = 'e' ∨ lowerChar a = 'w' ∨ lowerChar a = 'c' ∨
      lowerChar a = 'f') ∧ isDigitChar b ∧ isDigitChar c ∧ isDigitChar d) ||
    hasLintCode (b :: c :: d :: rest)
  | _ => false

/-- One `_MESSAGE_PATTERNS` row: does the case-insensitive pattern match
`combined`?  Each regex is an alternation of literal substrings (plus the
`[EWCF]\d{3}` lint codes in the LINTING row). -/
def anyCI (combined : String) (alts : List String) : Bool :=
  alts.any (strContainsCI combined)

/-- `classify_bug_type` (bug_classifier.py). -/
def classify_bug_type (error_type error_message test_output : String) :
    String :=
  let normalized := pyStrip error_type
  match (errorTypeMap.find? (fun p => p.1 = normalized)).map (·.2) with
  | some bt => bt
  | none =>
    let combined := error_type ++ " " ++ error_message ++ " " ++ test_output
    if anyCI combined ["unexpected indent", "IndentationError", "TabError",
        "indentation"] then "INDENTATION"
    else if anyCI combined ["SyntaxError", "invalid syntax",
        "unexpected token", "parsing error"] then "SYNTAX"
    else if anyCI combined ["ImportError", "ModuleNotFoundError",
        "cannot find module", "No module named", "Cannot resolve"] then
      "IMPORT"
    else if anyCI combined ["TypeError", "type error", "not callable",
        "not iterable", "is not a function"] then "TYPE_ERROR"
    else if anyCI combined ["lint", "flake8", "pylint", "eslint"] ||
        hasLintCode combined.data ||
        anyCI combined ["unused", "trailing whitespace", "line too long"]
      then "LINTING"
    else if anyCI combined ["NameError", "KeyError", "IndexError",
        "ValueError", "AttributeError", "AssertionError", "ReferenceError",
        "undefined", "is not defined"] then "LOGIC"
    else "LOGIC"

/-- `format_summary_line` (bug_classifier.py). -/
def format_summary_line (bug_type file_path : String) (line_number : Nat)
    (fix_description : String) : String :=
  bug_type ++ " error in " ++ file_path ++ " line " ++ toString line_number
    ++ " → Fix: " ++ fix_description

/- ════════════════════════════════════════════════════════════════
   §4  `src/services/git_service.py`
   ════════════════════════════════════════════════════════════════ -/

/-- `CloneResult` (git_service.py). -/
structure CloneResult where
  success : Bool
  path : Option String
  error : Option String
  deriving Repr, DecidableEq

/-- `_redact_token` (git_service.py): string-replace the configured PAT
and any explicitly supplied token with `<REDACTED_TOKEN>`. -/
def redact_token (patToken extraToken : Option String) (message : String) :
    String :=
  let m1 := match patToken with
    | some t => pyReplace message t "<REDACTED_TOKEN>"
    | none => message
  match extraToken with
  | some t => pyReplace m1 t "<REDACTED_TOKEN>"
  | none => m1

/-- Embedding a token as the `x-access-token` userinfo of a GitHub HTTPS
URL (shared by `_prepare_clone_url` and `publish_node`). -/
def urlEmbedToken (url tok : String) : String :=
  pyReplace url "https://github.com/"
    ("https://x-access-token:" ++ tok ++ "@github.com/")

/-- `_prepare_clone_url` (git_service.py): explicit token first, PAT
fallback second, both only for `https://github.com/` URLs. -/
def prepare_clone_url (url : String) (token patToken : Option String) :
    String :=
  match token with
  | some t =>
    if pyStartsWith url "https://github.com/" then urlEmbedToken url t else url
  | none =>
    match patToken with
    | some pat =>
      if pyStartsWith url "https://github.com/" then urlEmbedToken url pat
      else url
    | none => url

/-- How the `git clone` subprocess ends, together with whether it leaves
the destination directory on disk (`destLeft`). -/
inductive CloneOutcome where
  | completed (exitCode : Int) (stderr : String) (destLeft : Bool)
  | timedOut
  | raised (msg : String)
  deriving Repr, DecidableEq

/-- `clone_repository` (git_service.py lines 39–130), as a function of the
subprocess outcome.  Returns the `CloneResult` together with whether the
destination directory still exists when the call returns: the
`asyncio.TimeoutError` and generic `except` branches run
`shutil.rmtree`, while the non-zero-exit branch returns without removing
the destination. -/
def clone_repository (outcome : CloneOutcome) (clonePath : String)
    (patToken : Option String) : CloneResult × Bool :=
  match outcome with
  | .completed exitCode stderr destLeft =>
    if exitCode ≠ 0 then
      ({ success := false, path := none,
         error := some ("Git clone failed: "
           ++ pyTake (redact_token patToken none stderr) 500) }, destLeft)
    else ({ success := true, path := some clonePath, error := none },
      destLeft)
  | .timedOut =>
    ({ success := false, path := none,
       error := some "Git clone timed out" }, false)
  | .raised m =>
    ({ success := false, path := none,
       error := some ("Clone error: " ++ m) }, false)

/- ════════════════════════════════════════════════════════════════
   §5  `publish_node` error surface (langgraph_pipeline.py)
   ════════════════════════════════════════════════════════════════ -/

/-- `_git` (langgraph_pipeline.py line 815): the `RuntimeError` message
raised when a git subcommand exits non-zero —
`f"git {' '.join(args)} failed: {result.stderr[:300]}"`.  `args` include
the full push URL when the command is the publish push. -/
def gitFailureMessage (args : List String) (stderr : String) : String :=
  "git " ++ String.intercalate " " args ++ " failed: " ++ pyTake stderr 300

/-- `publish_node`'s push-URL construction (line 587): embed the resolved
token when present and the URL is a GitHub HTTPS URL. -/
def pushUrlWithToken (url token : String) : String :=
  if token ≠ "" ∧ pyStartsWith url "https://github.com/" then
    urlEmbedToken url token
  else url

/-- The `error` field of the `publishing/failed` step-update event sent by
`publish_node`'s exception handler (line 599): `str(exc)[:200]`.  No
redaction step is applied on this path. -/
def publishFailureEventError (excMsg : String) : String := pyTake excMsg 200

/- ════════════════════════════════════════════════════════════════
   §6  `src/services/github_app_service.py` — the credential broker
   ════════════════════════════════════════════════════════════════ -/

/-- One entry of the installation-token cache
(`{installation_id: {"token", "expires_at"}}`).  `expiresAt` is the value
the source stores — the server expiry already backed off by five minutes —
and `serverExpiresAt` records, for the proofs, the server-declared expiry
it was computed from (`expiresAt = serverExpiresAt - 300` at every write
site). -/
structure TokenEntry where
  token : String
  serverExpiresAt : Int
  expiresAt : Int
  deriving Repr, DecidableEq

/-- The token-mint endpoint's answer (`POST …/access_tokens`). -/
inductive MintResp where
  | ok (token : String) (serverExpiresAt : Int)
  | httpError (status : Int) (body : String)
  deriving Repr, DecidableEq

/-- `self._token_cache`. -/
abbrev TokenCache := List (Int × TokenEntry)

/-- Dictionary read. -/
def cacheLookup (c : TokenCache) (k : Int) : Option TokenEntry :=
  (c.find? (fun p => p.1 = k)).map (·.2)

/-- Dictionary write (`self._token_cache[installation_id] = …`). -/
def cacheInsert (c : TokenCache) (k : Int) (e : TokenEntry) : TokenCache :=
  (k, e) :: c.filter (fun p => ¬p.1 = k)

/-- What a `get_installation_token` call returns: the token, the updated
cache and whether the token was served from the cache (the
`Using cached installation token` branch). -/
structure TokenFetch where
  token : String
  cache : TokenCache
  fromCache : Bool
  deriving Repr, DecidableEq

/-- `get_installation_token` (github_app_service.py lines 236–297).  A
cached token is used iff `now < expires_at` (strict); otherwise the mint
endpoint is consulted and its token stored with
`expires_at = server_expiry - 5 min`.  A non-201 mint response raises. -/
def get_installation_token (cache : TokenCache) (now : Int)
    (installationId : Int) (resp : MintResp) : Except String TokenFetch :=
  let mintNew : Except String TokenFetch :=
    match resp with
    | .ok tok serverExp =>
      .ok { token := tok,
            cache := cacheInsert cache installationId
              { token := tok, serverExpiresAt := serverExp,
                expiresAt := serverExp - 300 },
            fromCache := false }
    | .httpError st body =>
      .error ("Installation token fetch failed: " ++ toString st ++ " - "
        ++ body)
  match cacheLookup cache installationId with
  | some e =>
    if now < e.expiresAt then
      .ok { token := e.token, cache := cache, fromCache := true }
    else mintNew
  | none => mintNew

/-- One broker interaction, for reachability of cache states. -/
inductive TokenOp where
  | fetch (now : Int) (installationId : Int) (resp : MintResp)
  | clearCache
  deriving Repr

/-- The cache after one interaction (a failed fetch leaves it unchanged;
`clear_cache` empties it). -/
def stepTokenOp (c : TokenCache) : TokenOp → TokenCache
  | .fetch now id resp =>
    match get_installation_token c now id resp with
    | .ok r => r.cache
    | .error _ => c
  | .clearCache => ([] : List (Int × TokenEntry))

/-- The cache reached from a fresh service by a sequence of interactions. -/
def runTokenOps (ops : List TokenOp) : TokenCache :=
  ops.foldl stepTokenOp ([] : List (Int × TokenEntry))

/-- Broker configuration: `GITHUB_APP_ID`, the private key, and the PAT
fallback (`GITHUB_TOKEN`).  Python truthiness of the optional strings. -/
structure BrokerCfg where
  appId : Option String
  privateKey : Option String
  patToken : Option String
  deriving Repr, DecidableEq

/-- Python truthiness of an optional string. -/
def truthyOpt (o : Option String) : Bool :=
  match o with
  | some s => s ≠ ""
  | none => false

/-- `is_app_configured` (github_app_service.py line 83). -/
def is_app_configured (cfg : BrokerCfg) : Bool :=
  truthyOpt cfg.appId && truthyOpt cfg.privateKey

/-- `has_pat_fallback` (line 88): `bool(settings.GITHUB_TOKEN)`;
a configured secret is modelled as `some`. -/
def has_pat_fallback (cfg : BrokerCfg) : Bool := cfg.patToken.isSome

/-- `get_auth_method` (line 92). -/
def get_auth_method (cfg : BrokerCfg) : String :=
  if is_app_configured cfg then "github_app"
  else if has_pat_fallback cfg then "pat"
  else "none"

/-- The installation-discovery endpoint's answer
(`GET /repos/{owner}/{repo}/installation`). -/
inductive InstResp where
  | status200 (id : Int)
  | status404
  | statusOther (code : Int) (body : String)
  | netError (msg : String)
  deriving Repr, DecidableEq

/-- `find_installation_for_repo` (lines 303–366): cache first, then — only
when the app is configured — the discovery endpoint; a `200` is cached and
returned, every other outcome (404, other status, network error) yields
`none` without caching. -/
def find_installation_for_repo (cfg : BrokerCfg)
    (instCache : List (String × Int)) (owner repo : String)
    (resp : InstResp) : Option Int × List (String × Int) :=
  let cacheKey := owner ++ "/" ++ repo
  match (instCache.find? (fun p => p.1 = cacheKey)).map (·.2) with
  | some id => (some id, instCache)
  | none =>
    if is_app_configured cfg then
      match resp with
      | .status200 id => (some id, (cacheKey, id) :: instCache)
      | _ => (none, instCache)
    else (none, instCache)

/-- `get_token_for_repo` (lines 372–407): prefer the app path (configured,
installation found and truthy, mint succeeded — possibly from cache); fall
back to the PAT on any app-path failure; raise only when no PAT is
configured either. -/
def get_token_for_repo (cfg : BrokerCfg)
    (instCache : List (String × Int)) (tokCache : TokenCache)
    (owner repo : String) (instResp : InstResp) (now : Int)
    (mintResp : MintResp) : Except String (String × String) :=
  let patFallback : Except String (String × String) :=
    match cfg.patToken with
    | some p => .ok (p, "pat")
    | none =>
      .error "Na GitHub App configure hai, na PAT token hai."
  if is_app_configured cfg then
    match (find_installation_for_repo cfg instCache owner repo instResp).1
      with
    | some installationId =>
      if installationId ≠ 0 then
        match get_installation_token tokCache now installationId mintResp
          with
        | .ok r => .ok (r.token, "github_app")
        | .error _ => patFallback
      else patFallback
    | none => patFallback
  else patFallback

/- ════════════════════════════════════════════════════════════════
   §7  The failure parser (langgraph_pipeline.py lines 829–1075)

   The Python regexes are compiled here into explicit character
   scanners.  Greedy quantifiers are realised by trying the longest
   candidate first and backtracking through a continuation; lazy
   quantifiers by trying the shortest candidate first.
   ════════════════════════════════════════════════════════════════ -/

/-- Decimal value of a digit run (`int(...)` on a `\d+` group). -/
def natOfDigits (l : List Char) : Nat :=
  l.foldl (fun acc c => acc * 10 + (c.toNat - 48)) 0

/-- Run a position matcher at every suffix, leftmost match first
(`re.search`). -/
def scanFirst (f : List Char → Option α) : List Char → Option α
  | [] => f []
  | c :: rest =>
    match f (c :: rest) with
    | some a => some a
    | none => scanFirst f rest

/-- Try the extension alternatives of `\.(?:ext₁|ext₂|…)` in order; on a
prefix match, run the continuation on the remainder, falling through to
the next alternative when it fails (regex backtracking). -/
def extsTry (exts : List String) (rest : List Char)
    (cont : List Char → Option α) : Option (List Char × α) :=
  match exts with
  | [] => none
  | e :: tl =>
    if List.isPrefixOf e.data rest then
      match cont (rest.drop e.data.length) with
      | some a => some (e.data, a)
      | none => extsTry tl rest cont
    else extsTry tl rest cont

/-- Backtracking loop for `\S+\.(?:exts)…`: try `\S+` of length `n+1`,
then the literal dot, the extension alternation and the continuation;
on failure retry one character shorter.  Called with the length of the
maximal non-whitespace run, so the longest candidate is tried first
(greediness). -/
def greedyFileGo (exts : List String) (m : List Char)
    (cont : List Char → Option α) : Nat → Option (List Char × α)
  | 0 => none
  | n + 1 =>
    match m.drop (n + 1) with
    | '.' :: rest =>
      (match extsTry exts rest cont with
       | some (eChars, a) => some (m.take (n + 1) ++ '.' :: eChars, a)
       | none => greedyFileGo exts m cont n)
    | _ => greedyFileGo exts m cont n

/-- Match `\S+\.(?:exts)` at the head of `m`, greedy, and feed what
follows the matched extension to `cont`.  Returns the matched group text
and the continuation's answer. -/
def greedyFileMatch (exts : List String) (m : List Char)
    (cont : List Char → Option α) : Option (List Char × α) :=
  greedyFileGo exts m cont (m.takeWhile nonSpace).length

/-- Match `(?:p₁|p₂|…)/` + `\S+\.(?:exts)` at the head of `l`
(the prefix alternation of the source-path regexes), alternatives in
order with backtracking. -/
def srcPrefixMatch (prefixes exts : List String) (l : List Char)
    (cont : List Char → Option α) : Option (List Char × α) :=
  match prefixes with
  | [] => none
  | p :: tl =>
    if List.isPrefixOf (p ++ "/").data l then
      match greedyFileMatch exts (l.drop (p.length + 1)) cont with
      | some (t, a) => some (p.data ++ '/' :: t, a)
      | none => srcPrefixMatch tl exts l cont
    else srcPrefixMatch tl exts l cont

/-- The trivial continuation (nothing is required after the group). -/
def contAny (_ : List Char) : Option Unit := some ()

/-- `re.search(r'((?:src|lib|app|test|tests)/\S+\.(?:js|jsx|ts|tsx|py|go|rs))', out)`
— the "source-path-looking substring" search of the synthetic fallback
(line 901). -/
def fileRefSearch (out : String) : Option String :=
  (scanFirst
    (fun l => srcPrefixMatch ["src", "lib", "app", "test", "tests"]
      ["js", "jsx", "ts", "tsx", "py", "go", "rs"] l contAny)
    out.data).map (fun p => String.mk p.1)

/-- `re.sub(r'^/?(?:workspace|app)/', '', ·)` — one leading sandbox-mount
prefix is stripped (lines 856/958). -/
def stripSandboxChars (l : List Char) : List Char :=
  let core := fun (m : List Char) =>
    if List.isPrefixOf "workspace/".data m then some (m.drop 10)
    else if List.isPrefixOf "app/".data m then some (m.drop 4)
    else none
  match l with
  | '/' :: r =>
    (match core r with
     | some res => res
     | none => l)
  | _ =>
    (match core l with
     | some res => res
     | none => l)

/-- Sandbox-prefix strip followed by `lstrip('/')`, as applied to every
parsed file path. -/
def normalizeSandboxPath (p : String) : String :=
  lstripSlash (String.mk (stripSandboxChars p.data))

/-- `if repo_path and file_path.startswith(repo_path):
Path(file_path).relative_to(repo_path)` (lines 852–853); the dropped
prefix is followed by stripping the path separator. -/
def relativeToRepo (repoPath filePath : String) : String :=
  if repoPath ≠ "" ∧ pyStartsWith filePath repoPath then
    String.mk ((filePath.data.drop repoPath.data.length).dropWhile
      (fun c => c = '/'))
  else filePath

/-- One structured record of the detective's log parser:
`(error_type, message, file, line)`. -/
structure ParsedError where
  error_type : String
  message : String
  file_path : Option String
  line_number : Option Nat
  deriving Repr, DecidableEq

/-- A structured failure record (the dicts built by
`_parse_test_failures`). -/
structure Failure where
  bug_type : String
  file : String
  line : Nat
  error_message : String
  snippet : String
  test_output : String
  deriving Repr, DecidableEq

/-- Word character (`\w`). -/
def isWordChar (c : Char) : Bool := c.isAlphanum || c = '_'

/-- Parse a Python traceback frame line `File "PATH", line N…`
(already stripped). -/
def parseFrameLine (l : List Char) : Option (String × Nat) :=
  if List.isPrefixOf "File \"".data l then
    let rest := l.drop 6
    let path := rest.takeWhile (fun c => ¬c = '"')
    match rest.drop path.length with
    | '"' :: r3 =>
      if List.isPrefixOf ", line ".data r3 then
        let ds := (r3.drop 7).takeWhile isDigitChar
        if ds.isEmpty then none else some (String.mk path, natOfDigits ds)
      else none
    | _ => none
  else none

/-- Parse a structured exception line `SomeError: message` /
`SomeException: message` (already stripped). -/
def parseErrorLine (l : List Char) : Option (String × String) :=
  let ident := l.takeWhile isWordChar
  match l.drop ident.length with
  | ':' :: r =>
    if ident.isEmpty then none
    else
      let name := String.mk ident
      if pyEndsWith name "Error" || pyEndsWith name "Exception" then
        some (name, pyStrip (String.mk r))
      else none
  | _ => none

/-- Modelled from the spec: `LogParser.parse` of
`agents/agent_1_detective/log_parser.py` is imported by
`_parse_test_failures` but is not under `src/`.  Spec §4.5 strategy 1
describes it as a "generic error-frame extractor that recognizes
tracebacks and structured exception lines across languages; produces
`(error_type, message, file, line)` tuples".  The model walks the lines,
remembers the most recent traceback frame, and emits a record for every
structured exception line, attributed to that frame. -/
def logParserParse (out : String) : List ParsedError :=
  ((pySplitlines out).foldl
    (fun (acc : Option (String × Nat) × List ParsedError) (line : String) =>
      let stripped := pyStrip line
      match parseFrameLine stripped.data with
      | some fr => (some fr, acc.2)
      | none =>
        match parseErrorLine stripped.data with
        | some (ty, msg) =>
          (acc.1, acc.2 ++
            [⟨ty, msg, acc.1.map (·.1), acc.1.map (·.2)⟩])
        | none => acc)
    (none, [])).2

/-- Read the ±3-line snippet around `line` of `file` when the file exists
in the working tree (lines 867–875 / 983–991); the working tree is the
association list `fs` keyed by repo-relative path. -/
def readSnippet (fs : List (String × String)) (file : String) (line : Nat) :
    String :=
  if 0 < line then
    match (fs.find? (fun p => p.1 = file)).map (·.2) with
    | some content =>
      let lns := pySplitlines content
      let start := line - 3
      let stop := min lns.length (line + 3)
      String.intercalate "\n" ((List.range (stop - start)).map (fun k =>
        toString (start + k + 1) ++ ": " ++ lns.getD (start + k) ""))
    | none => ""
  else ""

/-- The per-record loop of `_parse_test_failures` over the log parser's
output (lines 847–885): path normalization, `(file, line, error_type)`
deduplication, classification, snippet. -/
def processLogErrors (errors : List ParsedError) (repoPath : String)
    (testOutput : String) (fs : List (String × String)) : List Failure :=
  (errors.foldl
    (fun (acc : List (String × Nat × String) × List Failure) err =>
      let fp0 := err.file_path.getD "unknown"
      let line := err.line_number.getD 0
      let fp := normalizeSandboxPath (relativeToRepo repoPath fp0)
      let key := (fp, line, err.error_type)
      if key ∈ acc.1 then acc
      else
        (acc.1 ++ [key], acc.2 ++ [{
          bug_type := classify_bug_type err.error_type err.message testOutput,
          file := fp, line := line,
          error_message := err.error_type ++ ": " ++ err.message,
          snippet := readSnippet fs fp line,
          test_output := pyTake testOutput 2000 }]))
    ([], [])).2

/-- The `error|fail|exception|traceback|assert` keywords of
`_extract_first_error_line`. -/
def errorKeywords : List String :=
  ["error", "fail", "exception", "traceback", "assert"]

/-- First non-blank line whose lower-casing contains a keyword. -/
def firstErrorLineAux : List String → Option String
  | [] => none
  | line :: rest =>
    let stripped := pyStrip line
    if stripped = "" then firstErrorLineAux rest
    else if errorKeywords.any (fun kw => strContains (pyLower stripped) kw)
      then some (pyTake stripped 300)
    else firstErrorLineAux rest

/-- First non-blank line, truncated. -/
def firstNonEmptyLine : List String → Option String
  | [] => none
  | line :: rest =>
    if pyStrip line = "" then firstNonEmptyLine rest
    else some (pyTake (pyStrip line) 300)

/-- `_extract_first_error_line` (lines 1062–1075). -/
def extract_first_error_line (output : String) : String :=
  match firstErrorLineAux (pySplitlines output) with
  | some s => s
  | none =>
    match firstNonEmptyLine (pySplitlines output) with
    | some s => s
    | none => "Test process exited with non-zero code"

/- ── `_parse_jest_failures` (lines 914–1019) ─────────────────── -/

/-- Match `FAIL\s+(\S+)` at the head; returns the captured token and the
number of characters the whole match consumes. -/
def failMatchAt (l : List Char) : Option (String × Nat) :=
  if List.isPrefixOf "FAIL".data l then
    let r := l.drop 4
    let ws := r.takeWhile pySpace
    if ws.isEmpty then none
    else
      let r2 := r.drop ws.length
      let tok := r2.takeWhile nonSpace
      if tok.isEmpty then none
      else some (String.mk tok, 4 + ws.length + tok.length)
  else none

/-- `re.findall(r'FAIL\s+(\S+)', ·)`: non-overlapping scan, resuming
after each match (fuel = input length, ample since a match consumes at
least six characters). -/
def findFailFilesGo : List Char → Nat → List String
  | _, 0 => []
  | [], _ => []
  | c :: rest, fuel + 1 =>
    match failMatchAt (c :: rest) with
    | some (tok, n) => tok :: findFailFilesGo ((c :: rest).drop n) fuel
    | none => findFailFilesGo rest fuel

/-- The `fail_files` list (line 926). -/
def findFailFiles (s : List Char) : List String := findFailFilesGo s s.length

/-- Match the `re.split` separator `●\s+` at the head; returns its
length. -/
def bulletMatchAt (l : List Char) : Option Nat :=
  match l with
  | c :: r =>
    if c = '●' then
      let ws := r.takeWhile pySpace
      if ws.isEmpty then none else some (1 + ws.length)
    else none
  | [] => none

/-- `re.split(r'●\s+', ·)` (line 929), fuelled like `findFailFilesGo`. -/
def splitBulletGo : List Char → Nat → List (List Char)
  | l, 0 => [l]
  | [], _ => [[]]
  | c :: rest, fuel + 1 =>
    match bulletMatchAt (c :: rest) with
    | some n => [] :: splitBulletGo ((c :: rest).drop n) fuel
    | none =>
      match splitBulletGo rest fuel with
      | [] => [[c]]
      | h :: t => (c :: h) :: t

/-- The `test_blocks` split. -/
def splitBullet (s : List Char) : List (List Char) := splitBulletGo s s.length

/-- Match `at\s+\S+\s+\(([^:)]+):(\d+):\d+\)` at the head (location
pattern 1, line 935); returns `(group 1, group 2)`. -/
def locAtMatchAt (l : List Char) : Option (String × Nat) :=
  if List.isPrefixOf "at".data l then
    let r := l.drop 2
    let ws1 := r.takeWhile pySpace
    if ws1.isEmpty then none
    else
      let r1 := r.drop ws1.length
      let tok := r1.takeWhile nonSpace
      if tok.isEmpty then none
      else
        let r2 := r1.drop tok.length
        let ws2 := r2.takeWhile pySpace
        if ws2.isEmpty then none
        else
          match r2.drop ws2.length with
          | '(' :: r3 =>
            let g1 := r3.takeWhile (fun c => ¬(c = ':' ∨ c = ')'))
            if g1.isEmpty then none
            else
              match r3.drop g1.length with
              | ':' :: r4 =>
                let d1 := r4.takeWhile isDigitChar
                if d1.isEmpty then none
                else
                  match r4.drop d1.length with
                  | ':' :: r5 =>
                    let d2 := r5.takeWhile isDigitChar
                    if d2.isEmpty then none
                    else
                      match r5.drop d2.length with
                      | ')' :: _ => some (String.mk g1, natOfDigits d1)
                      | _ => none
                  | _ => none
              | _ => none
          | _ => none
  else none

/-- Match `\((\d+):\d+\)` at the head; returns group 1. -/
def parenMatchAt (l : List Char) : Option Nat :=
  match l with
  | '(' :: r =>
    let d1 := r.takeWhile isDigitChar
    if d1.isEmpty then none
    else
      match r.drop d1.length with
      | ':' :: r2 =>
        let d2 := r2.takeWhile isDigitChar
        if d2.isEmpty then none
        else
          match r2.drop d2.length with
          | ')' :: _ => some (natOfDigits d1)
          | _ => none
      | _ => none
  | _ => none

/-- First `\((\d+):\d+\)` before the next newline (the `.*?` part of
location pattern 2 cannot cross a line). -/
def firstParenScan : List Char → Option Nat
  | [] => none
  | c :: rest =>
    if c = '\n' then none
    else
      match parenMatchAt (c :: rest) with
      | some n => some n
      | none => firstParenScan rest

/-- Last position inside a non-whitespace run where `\((\d+):\d+\)`
matches (the backtracking of `\S*` gives back characters from the right). -/
def lastParenScan : List Char → Option Nat
  | [] => none
  | c :: rest =>
    match lastParenScan rest with
    | some n => some n
    | none => parenMatchAt (c :: rest)

/-- Match location pattern 2 (line 941),
`SyntaxError:\s*(/?\S+\.(?:js|jsx|ts|tsx))\S*.*?\((\d+):\d+\)`, at the
head.  After the greedy file group and `\S*` the lazy `.*?` finds the
first `(line:col)` after the non-whitespace run (on the same line);
backtracking through `\S*` otherwise finds the last one inside the run. -/
def syntaxErrLocAt (l : List Char) : Option (String × Nat) :=
  if List.isPrefixOf "SyntaxError:".data l then
    let r := (l.drop 12).dropWhile pySpace
    let fileM : Option (List Char) :=
      match r with
      | '/' :: r2 =>
        (match greedyFileMatch ["js", "jsx", "ts", "tsx"] r2 contAny with
         | some (g, _) => some ('/' :: g)
         | none =>
           (greedyFileMatch ["js", "jsx", "ts", "tsx"] r contAny).map (·.1))
      | _ => (greedyFileMatch ["js", "jsx", "ts", "tsx"] r contAny).map (·.1)
    match fileM with
    | some g =>
      let after := r.drop g.length
      let run := after.takeWhile nonSpace
      (match firstParenScan (after.drop run.length) with
       | some n => some (String.mk g, n)
       | none =>
         match lastParenScan run with
         | some n => some (String.mk g, n)
         | none => none)
    | none => none
  else none

/-- The `:(\d+):\d+` continuation of location pattern 3; returns the line
number and the consumed length after the file group. -/
def fileLineColCont (rest : List Char) : Option (Nat × Nat) :=
  match rest with
  | ':' :: r =>
    let d1 := r.takeWhile isDigitChar
    if d1.isEmpty then none
    else
      match r.drop d1.length with
      | ':' :: r2 =>
        let d2 := r2.takeWhile isDigitChar
        if d2.isEmpty then none
        else some (natOfDigits d1, 1 + d1.length + 1 + d2.length)
      | _ => none
  | _ => none

/-- Match location pattern 3 (line 947),
`(?:/workspace/)?(\S+\.(?:js|jsx|ts|tsx)):(\d+):\d+`, at the head;
returns `(group 1, line, total consumed length)`. -/
def fileLineColAt (l : List Char) : Option (String × Nat × Nat) :=
  let attempt := fun (m : List Char) (offset : Nat) =>
    match greedyFileMatch ["js", "jsx", "ts", "tsx"] m fileLineColCont with
    | some (g, ln, after) => some (String.mk g, ln, offset + g.length + after)
    | none => none
  if List.isPrefixOf "/workspace/".data l then
    match attempt (l.drop 11) 11 with
    | some res => some res
    | none => attempt l 0
  else attempt l 0

/-- `re.finditer` over pattern 3, taking the first match whose file group
does not mention `node_modules` and resuming after each rejected match
(lines 947–951). -/
def findFileLineCol : List Char → Nat → Option (String × Nat)
  | _, 0 => none
  | [], _ => none
  | c :: rest, fuel + 1 =>
    match fileLineColAt (c :: rest) with
    | some (g, ln, consumed) =>
      if strContains g "node_modules" then
        findFileLineCol ((c :: rest).drop consumed) fuel
      else some (g, ln)
    | none => findFileLineCol rest fuel

/-- `file:line` attribution of one `●` block: the four location patterns
in cascade, with the `node_modules` rejection of pattern 1 (lines
935–960).  `none` means every pattern failed. -/
def jestLocOfBlock (block : List Char) : Option (String × Nat) :=
  let loc1 :=
    match scanFirst locAtMatchAt block with
    | some (f, n) =>
      if strContains f "node_modules" then none else some (f, n)
    | none => none
  match loc1 with
  | some fl => some fl
  | none =>
    match scanFirst syntaxErrLocAt block with
    | some fl => some fl
    | none =>
      match findFileLineCol block block.length with
      | some fl => some fl
      | none =>
        match scanFirst
          (fun l => srcPrefixMatch ["src", "lib", "test", "tests",
            "__tests__"] ["js", "jsx", "ts", "tsx"] l contAny) block with
        | some (g, _) => some (String.mk g, 0)
        | none => none

/-- First `)` before the next newline; index of it. -/
def firstCloseParen : List Char → Option Nat
  | [] => none
  | c :: rest =>
    if c = ')' then some 0
    else if c = '\n' then none
    else (firstCloseParen rest).map (· + 1)

/-- Backtracking for `\S+\(.*?\)` after `.to` in message pattern 1: the
greedy `\S+` tries the rightmost `(` inside the non-whitespace run
first; the lazy `.*?` then reaches the first `)` on the line. -/
def expectTailGo (r2 : List Char) : Nat → Option (List Char)
  | 0 => none
  | p + 1 =>
    if r2.getD (p + 1) ' ' = '(' then
      match firstCloseParen (r2.drop (p + 2)) with
      | some q =>
        some (r2.take (p + 1) ++ '(' :: ((r2.drop (p + 2)).take q ++ [')']))
      | none => expectTailGo r2 p
    else expectTailGo r2 p

/-- The `\.to\S+\(.*?\)` tail of message pattern 1. -/
def expectDotTo (rest : List Char) : Option (List Char) :=
  if List.isPrefixOf ".to".data rest then
    let r2 := rest.drop 3
    let run := r2.takeWhile nonSpace
    (expectTailGo r2 (run.length - 1)).map
      (fun t => '.' :: 't' :: 'o' :: t)
  else none

/-- The lazy `.+?\)` inside `expect(...)`: close at the earliest `)`
(after at least one character) whose continuation succeeds. -/
def expectAfterOpen : List Char → Nat → Option (List Char)
  | [], _ => none
  | c :: rest, k =>
    if c = '\n' then none
    else
      match (if c = ')' ∧ 1 ≤ k then expectDotTo rest else none) with
      | some tail => some (')' :: tail)
      | none => (expectAfterOpen rest (k + 1)).map (fun t => c :: t)

/-- Message pattern 1 (line 964): `(expect\(.+?\)\.to\S+\(.*?\))`. -/
def expectMatchAt (l : List Char) : Option String :=
  if List.isPrefixOf "expect(".data l then
    (expectAfterOpen (l.drop 7) 0).map
      (fun t => String.mk ("expect(".data ++ t))
  else none

/-- Message pattern 2 (line 966): `(Expected .+)` — to the end of the
line, at least one character. -/
def expectedMatchAt (l : List Char) : Option String :=
  if List.isPrefixOf "Expected ".data l then
    let r := (l.drop 9).takeWhile (fun c => ¬c = '\n')
    if r.isEmpty then none
    else some (String.mk ("Expected ".data ++ r))
  else none

/-- The blank-line separator `(?:\n\n|\n\s*\n)`: a newline whose
following whitespace run contains another newline. -/
def blankSepAt (l : List Char) : Bool :=
  match l with
  | '\n' :: r => '\n' ∈ r.takeWhile pySpace
  | _ => false

/-- Lazy scan to the earliest blank-line separator (at least one
character consumed). -/
def lazyUntilSep : List Char → Nat → Option Nat
  | [], _ => none
  | c :: rest, k =>
    if blankSepAt (c :: rest) ∧ 1 ≤ k then some k
    else lazyUntilSep rest (k + 1)

/-- Message pattern 3 (line 969):
`(TestingLibraryElementError:\s*.+?)(?:\n\n|\n\s*\n)` with `re.DOTALL`. -/
def tleMatchAt (l : List Char) : Option String :=
  if List.isPrefixOf "TestingLibraryElementError:".data l then
    let r := l.drop 27
    let ws := r.takeWhile pySpace
    let body := r.drop ws.length
    match lazyUntilSep body 0 with
    | some k =>
      if k = 0 then none
      else some (String.mk ("TestingLibraryElementError:".data ++ ws
        ++ body.take k))
    | none => none
  else none

/-- The `\n\s*at\s` separator of message pattern 4. -/
def atSepScan : List Char → Bool
  | [] => false
  | c :: rest =>
    let wsAfter : Bool :=
      match (c :: rest).drop 2 with
      | d :: _ => pySpace d
      | [] => false
    if List.isPrefixOf "at".data (c :: rest) && wsAfter then true
    else if pySpace c then atSepScan rest
    else false

/-- Does `\n\s*at\s` match at the head? -/
def atSepAt (l : List Char) : Bool :=
  match l with
  | '\n' :: r => atSepScan r
  | _ => false

/-- Lazy scan to the earliest `\n\s*at\s` separator. -/
def lazyUntilAtSep : List Char → Nat → Option Nat
  | [], _ => none
  | c :: rest, k =>
    if atSepAt (c :: rest) ∧ 1 ≤ k then some k
    else lazyUntilAtSep rest (k + 1)

/-- Message pattern 4 (line 972):
`((?:Syntax|Type|Reference|)Error:\s*.+?)(?:\n\s*at\s|\Z)` with
`re.DOTALL` — note the empty alternative, which also accepts a bare
`Error:`. -/
def genErrMatchAt (l : List Char) : Option String :=
  match ["SyntaxError:", "TypeError:", "ReferenceError:", "Error:"].find?
    (fun p => List.isPrefixOf p.data l) with
  | some p =>
    let r := l.drop p.length
    let ws := r.takeWhile pySpace
    let body := r.drop ws.length
    (match lazyUntilAtSep body 0 with
     | some k =>
       if k = 0 then none else some (String.mk (p.data ++ ws ++ body.take k))
     | none =>
       if body.isEmpty then none else some (String.mk (p.data ++ ws ++ body)))
  | none => none

/-- The error-message extraction for one `●` block (lines 962–974):
patterns 1–4 in cascade; on a hit the message is
`"{test_name}: {match with newlines replaced}"` truncated to 200, on a
miss the bare test name. -/
def jestErrMsg (block : List Char) (testName : String) : String :=
  let m : Option String :=
    match scanFirst expectMatchAt block with
    | some s => some s
    | none =>
      match scanFirst expectedMatchAt block with
      | some s => some s
      | none =>
        match scanFirst tleMatchAt block with
        | some s => some s
        | none => scanFirst genErrMatchAt block
  match m with
  | some s =>
    testName ++ ": " ++
      pyTake (String.mk (s.data.map (fun c => if c = '\n' then ' ' else c))) 200
  | none => testName

/-- `_parse_jest_failures` (lines 914–1019). -/
def parse_jest_failures (test_output : String)
    (fs : List (String × String)) : List Failure :=
  let failFiles := findFailFiles test_output.data
  let blocks := (splitBullet test_output.data).drop 1
  let res := blocks.foldl
    (fun (acc : List (String × Nat × String) × List Failure) block =>
      let blockStr := String.mk block
      let testName :=
        match pySplitlines (pyStrip blockStr) with
        | [] => "unknown test"
        | l0 :: _ => pyStrip l0
      let loc := jestLocOfBlock block
      let filePath0 :=
        match loc with
        | some (f, _) => f
        | none =>
          match failFiles with
          | f0 :: _ => f0
          | [] => "unknown"
      let filePath := normalizeSandboxPath filePath0
      let line :=
        match loc with
        | some (_, n) => n
        | none => 0
      let errMsg := jestErrMsg block testName
      let key := (filePath, line, pyTake errMsg 50)
      if key ∈ acc.1 then acc
      else
        (acc.1 ++ [key], acc.2 ++ [{
          bug_type := classify_bug_type "AssertionError" errMsg blockStr,
          file := filePath, line := line,
          error_message := pyTake errMsg 300,
          snippet := readSnippet fs filePath line,
          test_output := pyTake blockStr 2000 }]))
    ([], [])
  let failures := res.2
  if failures.isEmpty ∧ ¬failFiles.isEmpty then
    (failFiles.foldl
      (fun (acc : List (String × Nat × String) × List Failure) ffile =>
        let key := (ffile, 0, "test_failure")
        if key ∈ acc.1 then acc
        else
          (acc.1 ++ [key], acc.2 ++ [{
            bug_type := "LOGIC", file := ffile, line := 0,
            error_message := "Test suite failed: " ++ ffile, snippet := "",
            test_output := pyTake test_output 2000 }]))
      ([], [])).2
  else failures

/- ── `_parse_eslint_failures` (lines 1022–1059) ──────────────── -/

/-- Alternative 1 of the ESLint pattern:
`^\s*(\S+\.(?:js|jsx|ts|tsx))\s*$` on one line. -/
def eslintFileLineMatch (l : List Char) : Option String :=
  let r := l.dropWhile pySpace
  match greedyFileMatch ["js", "jsx", "ts", "tsx"] r
    (fun rest => if rest.all pySpace then some () else none) with
  | some (g, _) => some (String.mk g)
  | none => none

/-- The `(.+?)\s+(\S+)\s*$` tail of ESLint alternative 2: lazily the
shortest message (at least one character) such that the remainder is
whitespace, a final token, and optional trailing whitespace. -/
def eslintMsgRuleGo : List Char → List Char → Option (String × String)
  | _, [] => none
  | msgRev, c :: rest =>
    let msgRev2 := c :: msgRev
    let ws := rest.takeWhile pySpace
    if ¬ws.isEmpty then
      let r2 := rest.drop ws.length
      let tok := r2.takeWhile nonSpace
      if ¬tok.isEmpty ∧ (r2.drop tok.length).all pySpace then
        some (String.mk msgRev2.reverse, String.mk tok)
      else eslintMsgRuleGo msgRev2 rest
    else eslintMsgRuleGo msgRev2 rest

/-- Alternative 2 of the ESLint pattern:
`^\s+(\d+):(\d+)\s+(error|warning)\s+(.+?)\s+(\S+)\s*$` on one line;
returns `(line, severity, message, rule)`. -/
def eslintRowMatch (l : List Char) : Option (Nat × String × String × String) :=
  let ws0 := l.takeWhile pySpace
  if ws0.isEmpty then none
  else
    let r := l.drop ws0.length
    let d1 := r.takeWhile isDigitChar
    if d1.isEmpty then none
    else
      match r.drop d1.length with
      | ':' :: r2 =>
        let d2 := r2.takeWhile isDigitChar
        if d2.isEmpty then none
        else
          let r3 := r2.drop d2.length
          let ws1 := r3.takeWhile pySpace
          if ws1.isEmpty then none
          else
            let r4 := r3.drop ws1.length
            let sev : Option String :=
              if List.isPrefixOf "error".data r4 then some "error"
              else if List.isPrefixOf "warning".data r4 then some "warning"
              else none
            match sev with
            | some sevStr =>
              let r5 := r4.drop sevStr.length
              let ws2 := r5.takeWhile pySpace
              if ws2.isEmpty then none
              else
                (eslintMsgRuleGo [] (r5.drop ws2.length)).map
                  (fun p => (natOfDigits d1, sevStr, p.1, p.2))
            | none => none
      | _ => none

/-- `_parse_eslint_failures`: a stateful walk over the lines — a
file-header line sets `current_file`, an indented `line:col severity
message rule` row (with a current file) appends a LINTING failure,
deduplicated by `(file, line, rule)`. -/
def parse_eslint_failures (test_output : String) : List Failure :=
  ((pySplitlines test_output).foldl
    (fun (acc : Option String × List (String × Nat × String) × List Failure)
        (line : String) =>
      match eslintFileLineMatch line.data with
      | some f => (some f, acc.2.1, acc.2.2)
      | none =>
        match eslintRowMatch line.data, acc.1 with
        | some (ln, sev, msg, rule), some curFile =>
          let key := (curFile, ln, rule)
          if key ∈ acc.2.1 then acc
          else
            (acc.1, acc.2.1 ++ [key], acc.2.2 ++ [{
              bug_type := "LINTING", file := curFile, line := ln,
              error_message :=
                "ESLint " ++ sev ++ ": " ++ msg ++ " (" ++ rule ++ ")",
              snippet := "", test_output := pyTake test_output 2000 }])
        | _, _ => acc)
    (none, [], [])).2.2

/- ── `_parse_test_failures` (lines 829–911) ──────────────────── -/

/-- The synthetic fallback failure (lines 899–909). -/
def syntheticFailure (test_output : String) : Failure :=
  { bug_type := classify_bug_type "Error" (pyTake test_output 500) test_output,
    file := (fileRefSearch test_output).getD "unknown",
    line := 0,
    error_message := extract_first_error_line test_output,
    snippet := "",
    test_output := pyTake test_output 2000 }

/-- `_parse_test_failures`: the strategy cascade — log-parser records,
then Jest patterns, then ESLint patterns, then (only when the raw output
has any non-whitespace content) exactly one synthetic failure.  The
runner's exit code is not among the inputs. -/
def parse_test_failures (test_output repoPath : String)
    (fs : List (String × String)) : List Failure :=
  let failures := processLogErrors (logParserParse test_output) repoPath
    test_output fs
  let failures :=
    if failures.isEmpty then parse_jest_failures test_output fs
    else failures
  let failures :=
    if failures.isEmpty then parse_eslint_failures test_output
    else failures
  if failures.isEmpty ∧ ¬(pyStrip test_output = "") then
    [syntheticFailure test_output]
  else failures

/- ════════════════════════════════════════════════════════════════
   §8  The pipeline state machine (langgraph_pipeline.py)

   The LangGraph graph wired in `build_pipeline` (lines 674–717):

     START → clone → detect_framework → install_deps → run_tests
           → analyze_failures
               ├─[no_failures]→ generate_results → END
               └─[has_failures]→ generate_fix → apply_fix → verify
                    ├─[publish]→ publish → generate_results → END
                    ├─[finish]→ generate_results → END
                    └─[retry]→ analyze_failures

   Clone, framework detection and dependency install mutate only state
   keys that no conditional edge or result field reads (`repo_path`,
   `test_framework`, `deps_installed`, plus a `status` key nothing
   branches on), so the model starts at `run_tests`.  Everything the
   environment decides — test exit codes, the parsed failures, the
   reasoner's parsed replies, patch-apply success, staging and push
   outcomes — is an explicit oracle `RunEnv`.
   ════════════════════════════════════════════════════════════════ -/

/-- A fix record as accumulated in `state["fixes"]`. -/
structure FixRec where
  file : String
  bug_type : String
  line_number : Nat
  summary : String
  diff : String
  commit_message : String
  status : String
  confidence : ℚ
  root_cause : String
  deriving Repr, DecidableEq

/-- A reasoner interaction for one failure, after
`_parse_llm_fix_output`: the parsed reply fields, or the exception the
`except` branch caught (lines 352–411). -/
inductive LLMOut where
  | reply (summary diff : String) (confidence : ℚ) (rootCause : String)
  | raised (msg : String)
  deriving Repr

/-- The git working tree as `publish_node` touches it. -/
structure RepoState where
  branch : String
  userConfigSet : Bool
  stagedAll : Bool
  commitMsgs : List String
  pushedTo : List (String × String)
  deriving Repr, DecidableEq

/-- The oracle for one run: `exitCode k` is the exit code of the `k`-th
test execution (0 = the initial RUN_TESTS, then one per VERIFY);
`parsed k` the failures the analyzer extracts from that execution's
output; `llm i j` the reasoner outcome for the `j`-th failure of
iteration `i`; `applyOk i j` whether any apply strategy succeeds for the
`j`-th accumulated fix during iteration `i`; `stagedNonEmpty` the
`git diff --cached --quiet` probe; `pushToken` the credential resolved
for the push; `pushOk` whether the push subprocess succeeds. -/
structure RunEnv where
  exitCode : Nat → Int
  parsed : Nat → List Failure
  llm : Nat → Nat → LLMOut
  applyOk : Nat → Nat → Bool
  stagedNonEmpty : Bool
  pushToken : Option String
  pushOk : Bool
  pushStderr : String

/-- The state keys the conditional edges and the results builder read. -/
structure PipeState where
  all_passed : Bool
  failures : List Failure
  fixes : List FixRec
  iteration : Nat
  commit_count : Nat
  execCount : Nat
  lastExit : Int
  repo : RepoState
  publishCommitted : Bool
  publishSkipped : Bool
  deriving Repr

/-- `run_tests_node` (lines 244–296): run the suite, record
`all_passed := exit code = 0`. -/
def runTestsStep (env : RunEnv) (s : PipeState) : PipeState :=
  let e := env.exitCode s.execCount
  { s with all_passed := e = 0, lastExit := e, execCount := s.execCount + 1 }

/-- `analyze_failures_node` (lines 299–321): parse the latest output. -/
def analyzeStep (env : RunEnv) (s : PipeState) : PipeState :=
  { s with failures := env.parsed (s.execCount - 1) }

/-- One entry appended by `generate_fix_node` for a failure (lines
337–411): a `pending` fix when the parsed reply has a diff, an
`unfixable` record when it does not, an `error` record when the call
raised. -/
def mkFixEntry (f : Failure) (o : LLMOut) : FixRec :=
  match o with
  | .reply summary diff confidence rootCause =>
    if diff ≠ "" then
      { file := f.file, bug_type := f.bug_type, line_number := f.line,
        summary := summary, diff := diff,
        commit_message := "[NeverDown-AI] Fix " ++ f.bug_type ++ " in "
          ++ f.file ++ " line " ++ toString f.line,
        status := "pending", confidence := confidence,
        root_cause := rootCause }
    else
      { file := f.file, bug_type := f.bug_type, line_number := f.line,
        summary := "UNFIXABLE", diff := "", commit_message := "",
        status := "unfixable", confidence := 0,
        root_cause :=
          if rootCause = "" then "Could not determine fix" else rootCause }
  | .raised msg =>
    { file := f.file, bug_type := f.bug_type, line_number := f.line,
      summary := "UNFIXABLE", diff := "", commit_message := "",
      status := "error", confidence := 0, root_cause := pyTake msg 200 }

/-- `generate_fix_node`: no failures leaves the state untouched;
otherwise one record per failure is appended to the accumulated list. -/
def generateFixStep (env : RunEnv) (s : PipeState) : PipeState :=
  if s.failures.isEmpty then s
  else
    let newFixes :=
      s.failures.enum.map (fun p => mkFixEntry p.2 (env.llm s.iteration p.1))
    { s with fixes := s.fixes ++ newFixes }

/-- `apply_fix_node` (lines 418–478): each `pending`/`generated` fix
with a non-empty diff becomes `applied` or `apply_failed` according to
whether any of the three strategies succeeded (an exception in the
strategies also yields `apply_failed`); other fixes are untouched. -/
def applyFixStep (env : RunEnv) (s : PipeState) : PipeState :=
  { s with fixes := s.fixes.enum.map (fun p =>
      let fx := p.2
      if (fx.status = "pending" ∨ fx.status = "generated") ∧ fx.diff ≠ ""
      then
        if env.applyOk s.iteration p.1 then { fx with status := "applied" }
        else { fx with status := "apply_failed" }
      else fx) }

/-- `verify_node` (lines 481–513): re-run the tests, bump the iteration
counter by one, and on a pass promote every `applied` fix to `fixed`. -/
def verifyStep (env : RunEnv) (s : PipeState) : PipeState :=
  let s2 := runTestsStep env s
  { s2 with
    iteration := s.iteration + 1,
    fixes :=
      if s2.all_passed then
        s2.fixes.map (fun f =>
          if f.status = "applied" then { f with status := "fixed" } else f)
      else s2.fixes }

/-- What `publish_node` did and left behind. -/
structure PublishOut where
  status : String
  error : Option String
  commit_count : Nat
  committed : Bool
  pushPerformed : Bool
  skipped : Bool
  repo : RepoState
  deriving Repr, DecidableEq

/-- `publish_node` (lines 516–600).  `fixed_files` are the files of the
fixes whose status is `fixed` or `applied`; with none of those the node
skips without touching the repository.  Otherwise it sets the git
identity, checks out the fix branch, stages everything; with nothing
staged it returns without committing; otherwise it commits, builds the
push URL (embedding the resolved token for GitHub HTTPS URLs) and
force-pushes; a push failure is reported as a failed status after the
commit already happened. -/
def publish_node (fixes : List FixRec) (branch repoUrl : String)
    (commitCount : Nat) (repo : RepoState) (stagedNonEmpty : Bool)
    (pushToken : Option String) (pushOk : Bool) (pushStderr : String) :
    PublishOut :=
  let fixedFiles := (fixes.filter
    (fun f => f.status = "fixed" ∨ f.status = "applied")).map (·.file)
  if fixedFiles.isEmpty then
    { status := "completed", error := none, commit_count := commitCount,
      committed := false, pushPerformed := false, skipped := true,
      repo := repo }
  else
    let repo1 := { repo with
      userConfigSet := true, branch := branch, stagedAll := true }
    if ¬stagedNonEmpty then
      { status := "completed", error := none, commit_count := commitCount,
        committed := false, pushPerformed := false, skipped := true,
        repo := repo1 }
    else
      let msg := "[NeverDown-AI] Fix " ++ toString fixedFiles.length
        ++ " issue(s) in " ++ String.intercalate ", " (fixedFiles.take 5)
      let repo2 := { repo1 with commitMsgs := repo1.commitMsgs ++ [msg] }
      let pushUrl :=
        match pushToken with
        | some tok => pushUrlWithToken repoUrl tok
        | none => repoUrl
      if pushOk then
        let repo3 := { repo2 with pushedTo := repo2.pushedTo ++ [(pushUrl, branch)] }
        { status := "completed", error := none,
          commit_count := commitCount + 1, committed := true,
          pushPerformed := true, skipped := false,
          repo := repo3 }
      else
        let excMsg := gitFailureMessage ["push", pushUrl, branch, "--force"] pushStderr
        { status := "failed",
          error := some (publishFailureEventError excMsg),
          commit_count := commitCount + 1, committed := true,
          pushPerformed := false, skipped := false, repo := repo2 }

/-- `publish_node` as a graph step. -/
def publishStep (env : RunEnv) (repoUrl branch : String) (s : PipeState) :
    PipeState :=
  let out := publish_node s.fixes branch repoUrl s.commit_count s.repo
    env.stagedNonEmpty env.pushToken env.pushOk env.pushStderr
  { s with
    commit_count := out.commit_count, repo := out.repo,
    publishCommitted := out.committed, publishSkipped := out.skipped }

/-- `should_retry`'s `has_applied` probe (line 665). -/
def hasApplied (fixes : List FixRec) : Bool :=
  fixes.any (fun f => f.status = "fixed" ∨ f.status = "applied")

/-- The `generate_fix → apply_fix → verify → should_retry` loop (edges at
lines 705–712 with `should_retry`, lines 659–667).  The caller passes a
state that has just been analyzed; `retry` loops back through
`analyze_failures`.  `fuel = maxRetries + 1` over-approximates the number
of rounds, which `should_retry` bounds by `iteration > max_retries`. -/
def healLoop (env : RunEnv) (repoUrl branch : String) (maxRetries : Nat) :
    Nat → PipeState → PipeState
  | 0, s => s
  | fuel + 1, s =>
    let sv := verifyStep env (applyFixStep env (generateFixStep env s))
    if sv.all_passed then publishStep env repoUrl branch sv
    else if maxRetries < sv.iteration then
      if hasApplied sv.fixes then publishStep env repoUrl branch sv else sv
    else healLoop env repoUrl branch maxRetries fuel (analyzeStep env sv)

/-- `generate_results_node` (lines 603–643): `final_status` is `PASSED`
exactly when `all_passed` holds — the count of parsed failures plays no
part — and the document is built by `build_results_json`.  (Timeline
events are elided from the state; the document's timeline field receives
the empty list.) -/
def generateResultsDoc (repoUrl team leader branch : String)
    (maxRetries : Nat) (startTime endTime : ℚ) (s : PipeState) :
    ResultsDoc :=
  let final_status := if s.all_passed then "PASSED" else "FAILED"
  build_results_json repoUrl team leader branch
    s.failures.length
    (s.fixes.filter (fun f => f.status = "fixed" ∨ f.status = "applied")).length
    (s.iteration - 1) maxRetries final_status (endTime - startTime)
    s.commit_count
    (s.fixes.map (fun f =>
      { file := f.file, bug_type := f.bug_type,
        line_number := f.line_number, commit_message := f.commit_message,
        status := f.status }))
    []

/-- The final state together with its results document. -/
structure GraphResult where
  doc : ResultsDoc
  state : PipeState
  deriving Repr

/-- The compiled graph run on the initial state of `run_pipeline`
(lines 748–772): `run_tests → analyze_failures`, then either straight to
`generate_results` (`no_failures`, which `has_failures` grants only when
`all_passed`) or through the healing loop. -/
def initialRepoState : RepoState :=
  { branch := "main", userConfigSet := false, stagedAll := false,
    commitMsgs := [], pushedTo := [] }

/-- The `initial_state` of `run_pipeline` (lines 748–772), restricted to
the keys the model tracks. -/
def initialPipeState : PipeState :=
  { all_passed := false, failures := [], fixes := [], iteration := 1,
    commit_count := 0, execCount := 0, lastExit := 0,
    repo := initialRepoState,
    publishCommitted := false, publishSkipped := false }

/-- The pipeline state when control reaches `generate_results`:
`run_tests → analyze_failures`, then either directly out (`no_failures`,
which `has_failures` grants only when `all_passed`) or through the
healing loop. -/
def runGraphFinalState (env : RunEnv) (repoUrl branch : String)
    (maxRetries : Nat) : PipeState :=
  let s2 := analyzeStep env (runTestsStep env initialPipeState)
  if s2.all_passed then s2
  else healLoop env repoUrl branch maxRetries (maxRetries + 1) s2

def runGraph (env : RunEnv) (repoUrl team leader : String)
    (maxRetries : Nat) (startTime endTime : ℚ) : GraphResult :=
  let branch := make_branch_name team leader
  let sfin := runGraphFinalState env repoUrl branch maxRetries
  { doc := generateResultsDoc repoUrl team leader branch maxRetries
      startTime endTime sfin,
    state := sfin }

/-- What `run_pipeline` leaves behind besides its return value. -/
structure RunOutcome where
  doc : ResultsDoc
  persisted : Bool
  wsResultSent : Bool
  deriving Repr

/-- `run_pipeline` (lines 728–798): `pipeline.ainvoke` either returns a
final state or raises; the `except` branch builds a `FAILED` document
with a single `ERROR` timeline event carrying the truncated exception
text, persists it and broadcasts it (`persisted`/`wsResultSent`).  On the
normal path the document was built and persisted inside
`generate_results_node`. -/
def run_pipeline (pipelineOutcome : Except String GraphResult)
    (repoUrl team leader : String) (maxRetries : Nat)
    (startTime endTime : ℚ) : RunOutcome :=
  match pipelineOutcome with
  | .ok g => { doc := g.doc, persisted := true, wsResultSent := true }
  | .error exc =>
    { doc := build_results_json repoUrl team leader
        (make_branch_name team leader) 0 0 0 maxRetries "FAILED"
        (endTime - startTime) 0 []
        [{ state := "ERROR", details := [("error", pyTake exc 300)] }],
      persisted := true, wsResultSent := true }

/- ════════════════════════════════════════════════════════════════
   §9  Claim-side helper definitions and concrete instances
   ════════════════════════════════════════════════════════════════ -/

/-- Claim-side description of the synthetic failure's message source:
the first line (non-blank, stripped) whose lower-casing contains one of
`error|fail|exception|traceback|assert`. -/
def firstKeywordLine (output : String) : Option String :=
  ((pySplitlines output).filterMap (fun line =>
    let stripped := pyStrip line
    if ¬stripped = "" ∧
        errorKeywords.any (fun kw => strContains (pyLower stripped) kw)
    then some stripped else none)).head?

/-- A failing runner output on which no structured strategy fires: no
traceback or exception line, no Jest `FAIL`/`●` markers, no ESLint rows —
only a keyword line and a source-path mention. -/
def c2WitnessOutput : String :=
  "BUILD FAILURE: exit status 2\nsee src/main.py for details"

/-- The C3 witness fix record. -/
def c3AppliedFix : FixRec :=
  { file := "src/utils.py", bug_type := "LOGIC", line_number := 42,
    summary := "s", diff := "d", commit_message := "m",
    status := "applied", confidence := 1, root_cause := "r" }

/-- The credential of the C4 failing input. -/
def c4Token : String := "ghp_SecretValue123"

/-- The C4 failing input: a publish whose push subprocess fails while the
push URL embeds the resolved installation/PAT token.  The `PublishOut`
`error` field models the `error` payload of the `publishing/failed`
step-update event (`str(exc)[:200]`). -/
def c4PublishOut : PublishOut :=
  publish_node
    [{ file := "src/App.test.js", bug_type := "LOGIC", line_number := 10,
       summary := "s", diff := "d", commit_message := "m",
       status := "applied", confidence := 1, root_cause := "r" }]
    "TEAMX_ALICE_AI_Fix" "https://github.com/acme/webapp" 0
    { branch := "main", userConfigSet := false, stagedAll := false,
      commitMsgs := [], pushedTo := [] }
    true (some c4Token) false "fatal: unable to access repository"

/- ════════════════════════════════════════════════════════════════
   §10  Theorems
   ════════════════════════════════════════════════════════════════ -/

/- ── Character-level lemmas for the branch-name derivation ───── -/

theorem dropWhile_eq_self_of_false {p : Char → Bool} {l : List Char}
    (h : ∀ c ∈ l, p c = false) : l.dropWhile p = l := by
  cases l with
  | nil => rfl
  | cons c t => simp [List.dropWhile, h c (List.mem_cons_self c t)]

theorem stripChars_eq_self {l : List Char}
    (h : ∀ c ∈ l, pySpace c = false) : stripChars l = l := by
  unfold stripChars
  rw [dropWhile_eq_self_of_false h,
    dropWhile_eq_self_of_false (fun c hc => h c (List.mem_reverse.mp hc)),
    List.reverse_reverse]

theorem collapseWsAux_eq_self {l : List Char}
    (h : ∀ c ∈ l, pySpace c = false) (b : Bool) : collapseWsAux b l = l := by
  induction l generalizing b with
  | nil => rfl
  | cons c t ih =>
    have hc := h c (List.mem_cons_self c t)
    simp [collapseWsAux, hc,
      ih (fun d hd => h d (List.mem_cons_of_mem c hd))]

theorem map_eq_self_of_mem {f : Char → Char} {l : List Char}
    (h : ∀ c ∈ l, f c = c) : l.map f = l := by
  induction l with
  | nil => rfl
  | cons c t ih =>
    simp [h c (List.mem_cons_self c t),
      ih (fun d hd => h d (List.mem_cons_of_mem c hd))]

theorem isUpperDigitUnderscore_iff (c : Char) :
    isUpperDigitUnderscore c = true ↔
      (65 ≤ c.toNat ∧ c.toNat ≤ 90) ∨ (48 ≤ c.toNat ∧ c.toNat ≤ 57)
        ∨ c.toNat = 95 := by
  simp [isUpperDigitUnderscore, Bool.or_eq_true, Bool.and_eq_true,
    decide_eq_true_eq, and_assoc, or_assoc]

theorem nonAlnumUnderscore_good (c : Char) :
    isUpperDigitUnderscore (nonAlnumUnderscore c) = true := by
  unfold nonAlnumUnderscore
  split
  · rename_i h
    rw [isUpperDigitUnderscore_iff]
    omega
  · decide

theorem sanitizeChars_good (l : List Char) :
    ∀ c ∈ sanitizeChars l, isUpperDigitUnderscore c = true := by
  intro c hc
  unfold sanitizeChars at hc
  rw [List.mem_map] at hc
  obtain ⟨d, _, rfl⟩ := hc
  exact nonAlnumUnderscore_good d

theorem good_not_space {c : Char} (h : isUpperDigitUnderscore c = true) :
    pySpace c = false := by
  rw [isUpperDigitUnderscore_iff] at h
  simp only [pySpace, Bool.or_eq_false_iff, beq_eq_false_iff_ne, ne_eq]
  omega

theorem good_upperChar {c : Char} (h : isUpperDigitUnderscore c = true) :
    upperChar c = c := by
  rw [isUpperDigitUnderscore_iff] at h
  unfold upperChar
  split
  · rename_i h2; omega
  · rfl

theorem char_eq_of_toNat_95 {c : Char} (h : c.toNat = 95) : c = '_' := by
  apply Char.ext
  apply UInt32.ext
  exact h

theorem good_nonAlnumUnderscore {c : Char}
    (h : isUpperDigitUnderscore c = true) : nonAlnumUnderscore c = c := by
  rw [isUpperDigitUnderscore_iff] at h
  unfold nonAlnumUnderscore
  split
  · rfl
  · rename_i h2
    have h95 : c.toNat = 95 := by omega
    rw [char_eq_of_toNat_95 h95]

theorem sanitizeChars_eq_self {m : List Char}
    (h : ∀ c ∈ m, isUpperDigitUnderscore c = true) : sanitizeChars m = m := by
  unfold sanitizeChars subWsUnderscore
  rw [stripChars_eq_self (fun c hc => good_not_space (h c hc))]
  rw [map_eq_self_of_mem (fun c hc => good_upperChar (h c hc))]
  rw [collapseWsAux_eq_self (fun c hc => good_not_space (h c hc)) false]
  exact map_eq_self_of_mem (fun c hc => good_nonAlnumUnderscore (h c hc))

theorem sanitizeChars_idem (l : List Char) :
    sanitizeChars (sanitizeChars l) = sanitizeChars l :=
  sanitizeChars_eq_self (sanitizeChars_good l)

/-- C5 (amended): the publish branch name is
`sanitize(team) ++ "_" ++ sanitize(leader) ++ "_AI_Fix"` where `sanitize`
uppercases, collapses each whitespace run to a single underscore and
replaces every remaining non-`[A-Z0-9]` character by its own underscore;
each sanitized label contains only `[A-Z0-9_]` and sanitization is
idempotent.  (The full name additionally carries the fixed suffix
`_AI_Fix`, whose `i` and `x` are lowercase.) -/
theorem C5_branch_name_amended (team leader : String) :
    make_branch_name team leader
      = sanitizeLabel team ++ "_" ++ sanitizeLabel leader ++ "_AI_Fix"
    ∧ (sanitizeLabel team).data.all isUpperDigitUnderscore = true
    ∧ (sanitizeLabel leader).data.all isUpperDigitUnderscore = true
    ∧ sanitizeLabel (sanitizeLabel team) = sanitizeLabel team
    ∧ sanitizeLabel (sanitizeLabel leader) = sanitizeLabel leader := by
  refine ⟨rfl, ?_, ?_, ?_, ?_⟩
  · rw [List.all_eq_true]
    intro c hc
    exact sanitizeChars_good team.data c hc
  · rw [List.all_eq_true]
    intro c hc
    exact sanitizeChars_good leader.data c hc
  · show String.mk (sanitizeChars (sanitizeChars team.data)) = _
    rw [sanitizeChars_idem]; rfl
  · show String.mk (sanitizeChars (sanitizeChars leader.data)) = _
    rw [sanitizeChars_idem]; rfl

/-- C5 counterexample: with team `"a--b"` and leader `"c"` the code
produces `A__B_C_AI_Fix` — the run `--` is not collapsed to a single
underscore as the claim states — and the name contains the lowercase
characters `i` and `x` of the `_AI_Fix` suffix, so it is not drawn from
`[A-Z0-9_]`. -/
theorem C5_claim_counterexample :
    ¬ (make_branch_name "a--b" "c" = claimBranchName "a--b" "c"
       ∧ (make_branch_name "a--b" "c").data.all isUpperDigitUnderscore
           = true) := by
  decide

/-- C6: for every total wall time and commit count, the computed score
equals base 100, plus a speed bonus of 10 exactly when the wall time is
strictly below 300 seconds, minus 2 for every commit beyond 20, floored
at 0. -/
theorem C6_score_formula (t : ℚ) (commits : Int) (fl fx : Nat) :
    (calculate_score t commits fl fx).final
      = max 0 ((100 + (if t < 300 then 10 else 0))
          - 2 * max 0 (commits - 20)) := by
  simp only [calculate_score]
  split <;> omega

/-- C9 (amended): a clone failure always yields an unsuccessful
`CloneResult` (never an exception); the destination directory is removed
by the service on a timeout and on an in-process exception, but on a
non-zero `git clone` exit the service returns the failure — with the
redacted, truncated stderr — without removing whatever the subprocess
left at the destination. -/
theorem C9_clone_cleanup (outcome : CloneOutcome) (clonePath : String)
    (patToken : Option String) :
    ((clone_repository outcome clonePath patToken).1.success = true
       ↔ ∃ stderr destLeft, outcome = .completed 0 stderr destLeft)
    ∧ (outcome = .timedOut →
        (clone_repository outcome clonePath patToken).2 = false
        ∧ (clone_repository outcome clonePath patToken).1.error
            = some "Git clone timed out")
    ∧ (∀ m, outcome = .raised m →
        (clone_repository outcome clonePath patToken).2 = false
        ∧ (clone_repository outcome clonePath patToken).1.success = false)
    ∧ (∀ ec stderr destLeft, outcome = .completed ec stderr destLeft →
        ec ≠ 0 →
        (clone_repository outcome clonePath patToken).1.success = false
        ∧ (clone_repository outcome clonePath patToken).2 = destLeft
        ∧ (clone_repository outcome clonePath patToken).1.error
            = some ("Git clone failed: "
                ++ pyTake (redact_token patToken none stderr) 500)) := by
  rcases outcome with ⟨ec, stderr, dl⟩ | _ | m
  · by_cases h : ec = 0
    · subst h
      refine ⟨by simp [clone_repository], by simp, by simp, ?_⟩
      intro ec2 st2 dl2 heq hne
      injection heq with h1 h2 h3
      exact absurd h1.symm hne
    · refine ⟨?_, by simp, by simp, ?_⟩
      · simp only [clone_repository, if_pos h]
        constructor
        · intro hfalse; exact absurd hfalse (by simp)
        · rintro ⟨st2, dl2, heq⟩
          injection heq with h1 _ _
          exact absurd h1 h
      · intro ec2 st2 dl2 heq hne
        injection heq with h1 h2 h3
        subst h1; subst h2; subst h3
        simp [clone_repository, if_pos h]
  · exact ⟨by simp [clone_repository], by simp [clone_repository],
      by simp, by simp⟩
  · exact ⟨by simp [clone_repository], by simp,
      by intro m2 h; simp [clone_repository], by simp⟩

/-- C9 counterexample: a clone that exits non-zero while the subprocess
left the destination directory behind — the service reports the failure
but the partial destination is still on disk, contradicting the claim
that a failed clone removes it. -/
theorem C9_counterexample :
    (clone_repository
      (.completed 1 "fatal: repository not found" true)
      "/tmp/repo-r1" none).1.success = false
    ∧ (clone_repository
        (.completed 1 "fatal: repository not found" true)
        "/tmp/repo-r1" none).2 = true := by
  constructor <;> rfl

/-- C9 witness: the timeout branch at a concrete input — failure result,
destination removed. -/
theorem C9_witness :
    (clone_repository .timedOut "/tmp/repo-w" none).2 = false
    ∧ (clone_repository .timedOut "/tmp/repo-w" none).1.error
        = some "Git clone timed out" :=
  (C9_clone_cleanup .timedOut "/tmp/repo-w" none).2.1 rfl

set_option maxRecDepth 8000 in
/-- C4: the claim fails on the code, and the code — not the claim — is
the slip: `publish_node`'s exception handler broadcasts `str(exc)[:200]`
to observers with no redaction step, and the `_git` `RuntimeError`
message interpolates the push URL, which embeds the resolved credential.
At the failing input the event payload contains the token as a
substring; the second conjunct shows the mandated redaction step
(`_redact_token`) would have removed it. -/
theorem C4_publish_error_leaks_token :
    strContains ((c4PublishOut.error).getD "") c4Token = true
    ∧ strContains
        (redact_token (some c4Token) none ((c4PublishOut.error).getD ""))
        c4Token = false := by
  constructor <;> decide

/- ── Reachable token caches are well-formed ──────────────────── -/

theorem get_installation_token_ok (cache : TokenCache) (now instId : Int)
    (resp : MintResp) (r : TokenFetch)
    (h : get_installation_token cache now instId resp = .ok r) :
    (∃ e, cacheLookup cache instId = some e ∧ now < e.expiresAt
       ∧ r = ⟨e.token, cache, true⟩)
    ∨ (∃ tok se, resp = .ok tok se
       ∧ r = ⟨tok, cacheInsert cache instId ⟨tok, se, se - 300⟩, false⟩) := by
  cases hl : cacheLookup cache instId with
  | some e =>
    by_cases hn : now < e.expiresAt
    · simp only [get_installation_token, hl, if_pos hn] at h
      left
      exact ⟨e, rfl, hn, ((Except.ok.injEq _ _).mp h).symm⟩
    · cases resp with
      | ok tok se =>
        simp only [get_installation_token, hl, if_neg hn] at h
        right
        exact ⟨tok, se, rfl, ((Except.ok.injEq _ _).mp h).symm⟩
      | httpError st body =>
        simp only [get_installation_token, hl, if_neg hn] at h
        exact absurd h (by simp)
  | none =>
    cases resp with
    | ok tok se =>
      simp only [get_installation_token, hl] at h
      right
      exact ⟨tok, se, rfl, ((Except.ok.injEq _ _).mp h).symm⟩
    | httpError st body =>
      simp only [get_installation_token, hl] at h
      exact absurd h (by simp)

theorem stepTokenOp_wf {c : TokenCache}
    (h : ∀ p ∈ c, p.2.expiresAt = p.2.serverExpiresAt - 300)
    (op : TokenOp) :
    ∀ p ∈ stepTokenOp c op, p.2.expiresAt = p.2.serverExpiresAt - 300 := by
  cases op with
  | clearCache => intro p hp; simp [stepTokenOp] at hp
  | fetch now id resp =>
    intro p hp
    simp only [stepTokenOp] at hp
    cases hres : get_installation_token c now id resp with
    | error msg =>
      simp only [hres] at hp
      exact h p hp
    | ok r =>
      simp only [hres] at hp
      rcases get_installation_token_ok c now id resp r hres with
        ⟨e, _, _, hr⟩ | ⟨tok, se, _, hr⟩
      · subst hr; exact h p hp
      · subst hr
        simp only [cacheInsert] at hp
        rcases List.mem_cons.mp hp with heq | hmem
        · subst heq; rfl
        · exact h p (List.mem_of_mem_filter hmem)

theorem runTokenOps_wf (ops : List TokenOp) :
    ∀ p ∈ runTokenOps ops, p.2.expiresAt = p.2.serverExpiresAt - 300 := by
  suffices hgen : ∀ (c : TokenCache),
      (∀ p ∈ c, p.2.expiresAt = p.2.serverExpiresAt - 300) →
      ∀ p ∈ ops.foldl stepTokenOp c,
        p.2.expiresAt = p.2.serverExpiresAt - 300 by
    exact hgen [] (by simp)
  induction ops with
  | nil => intro c h; simpa using h
  | cons op tl ih =>
    intro c h
    simp only [List.foldl_cons]
    exact ih (stepTokenOp c op) (stepTokenOp_wf h op)

/-- C7: whenever `get_installation_token` answers from its cache — on any
cache state reachable from a fresh broker — the current time is strictly
before the server-declared expiry minus the five-minute safety margin. -/
theorem C7_cached_token_fresh (ops : List TokenOp) (now instId : Int)
    (resp : MintResp) (tok : String) (cache2 : TokenCache)
    (h : get_installation_token (runTokenOps ops) now instId resp
        = .ok { token := tok, cache := cache2, fromCache := true }) :
    ∃ e, cacheLookup (runTokenOps ops) instId = some e ∧ tok = e.token
      ∧ now < e.serverExpiresAt - 300 := by
  rcases get_installation_token_ok (runTokenOps ops) now instId resp _ h
    with ⟨e, hl, hn, hr⟩ | ⟨t, se, _, hr⟩
  · have htok : tok = e.token := by
      have := (TokenFetch.mk.injEq _ _ _ _ _ _).mp hr
      exact this.1
    refine ⟨e, hl, htok, ?_⟩
    have hw : e.expiresAt = e.serverExpiresAt - 300 := by
      unfold cacheLookup at hl
      cases hf : (runTokenOps ops).find? (fun p => p.1 = instId) with
      | none => rw [hf] at hl; exact Option.noConfusion hl
      | some pr =>
        rw [hf] at hl
        injection hl with hl2
        have hmem := List.mem_of_find?_eq_some hf
        have hwf := runTokenOps_wf ops pr hmem
        rw [← hl2]
        exact hwf
    omega
  · exfalso
    have hfc := (TokenFetch.mk.injEq _ _ _ _ _ _).mp hr
    exact absurd hfc.2.2 (by decide)

/-- C7 witness: a token minted with server expiry 4000 is served from the
cache at time 100 — inside the safety margin. -/
theorem C7_cached_token_fresh_witness :
    ∃ e, cacheLookup
        (runTokenOps [TokenOp.fetch 0 7 (MintResp.ok "tokA" 4000)]) 7
      = some e ∧ "tokA" = e.token ∧ 100 < e.serverExpiresAt - 300 :=
  C7_cached_token_fresh [TokenOp.fetch 0 7 (MintResp.ok "tokA" 4000)]
    100 7 (MintResp.httpError 500 "boom") "tokA"
    (runTokenOps [TokenOp.fetch 0 7 (MintResp.ok "tokA" 4000)]) (by rfl)

/-- C8: token resolution prefers the app path — app configured, an
installation found (and non-zero, i.e. truthy) and a mint (possibly
served from cache) succeeding yields the installation token with method
`github_app`; any failure in the app path falls back to the PAT with
method `pat` when one is configured; and the call raises exactly when
neither path yields a credential. -/
theorem C8_token_resolution (cfg : BrokerCfg)
    (instCache : List (String × Int)) (tokCache : TokenCache)
    (owner repo : String) (instResp : InstResp) (now : Int)
    (mintResp : MintResp) (fInst : Option Int)
    (hf : fInst
      = (find_installation_for_repo cfg instCache owner repo instResp).1) :
    (∀ installationId r,
        is_app_configured cfg = true → fInst = some installationId →
        installationId ≠ 0 →
        get_installation_token tokCache now installationId mintResp
          = .ok r →
        get_token_for_repo cfg instCache tokCache owner repo instResp now
          mintResp = .ok (r.token, "github_app"))
    ∧ (∀ p, cfg.patToken = some p →
        (is_app_configured cfg = false ∨ fInst = none ∨ fInst = some 0
          ∨ (∃ installationId msg, fInst = some installationId ∧
              get_installation_token tokCache now installationId mintResp
                = .error msg)) →
        get_token_for_repo cfg instCache tokCache owner repo instResp now
          mintResp = .ok (p, "pat"))
    ∧ ((∃ msg, get_token_for_repo cfg instCache tokCache owner repo
          instResp now mintResp = .error msg)
        ↔ (cfg.patToken = none
           ∧ (is_app_configured cfg = false ∨ fInst = none ∨ fInst = some 0
              ∨ (∃ installationId msg2, fInst = some installationId ∧
                  get_installation_token tokCache now installationId
                    mintResp = .error msg2)))) := by
  subst hf
  cases happ : is_app_configured cfg with
  | false =>
    refine ⟨?_, ?_, ?_⟩
    · intro iid r h1
      exact absurd h1 (by simp [happ])
    · intro p hp _
      simp [get_token_for_repo, happ, hp]
    · cases hpat : cfg.patToken with
      | some p => simp [get_token_for_repo, happ, hpat]
      | none => simp [get_token_for_repo, happ, hpat]
  | true =>
    cases hfi :
      (find_installation_for_repo cfg instCache owner repo instResp).1 with
    | none =>
      refine ⟨?_, ?_, ?_⟩
      · intro iid r _ h2
        exact absurd h2 (by simp [hfi])
      · intro p hp _
        simp [get_token_for_repo, happ, hfi, hp]
      · cases hpat : cfg.patToken with
        | some p => simp [get_token_for_repo, happ, hfi, hpat]
        | none => simp [get_token_for_repo, happ, hfi, hpat]
    | some iid =>
      by_cases hz : iid = 0
      · subst hz
        refine ⟨?_, ?_, ?_⟩
        · intro iid2 r _ h2 h3 _
          injection h2 with h2e
          exact absurd h2e.symm h3
        · intro p hp _
          simp [get_token_for_repo, happ, hfi, hp]
        · cases hpat : cfg.patToken with
          | some p => simp [get_token_for_repo, happ, hfi, hpat]
          | none => simp [get_token_for_repo, happ, hfi, hpat]
      · cases hmint :
          get_installation_token tokCache now iid mintResp with
        | ok r0 =>
          refine ⟨?_, ?_, ?_⟩
          · intro iid2 r _ h2 _ h4
            injection h2 with h2e
            subst h2e
            rw [hmint] at h4
            injection h4 with h4e
            subst h4e
            simp [get_token_for_repo, happ, hfi, hz, hmint]
          · intro p hp hdisj
            rcases hdisj with h1 | h1 | h1 | ⟨iid2, msg, h1, h2⟩
            · exact absurd h1 (by simp)
            · exact absurd h1 (by simp)
            · injection h1 with h1e; exact absurd h1e hz
            · injection h1 with h1e
              subst h1e
              rw [hmint] at h2
              exact absurd h2 (by simp)
          · constructor
            · rintro ⟨msg, hres⟩
              rw [show get_token_for_repo cfg instCache tokCache owner repo
                  instResp now mintResp = .ok (r0.token, "github_app") by
                simp [get_token_for_repo, happ, hfi, hz, hmint]] at hres
              exact absurd hres (by simp)
            · rintro ⟨hpat, h1 | h1 | h1 | ⟨iid2, msg, h1, h2⟩⟩
              · exact absurd h1 (by simp)
              · exact absurd h1 (by simp)
              · injection h1 with h1e; exact absurd h1e hz
              · injection h1 with h1e
                subst h1e
                rw [hmint] at h2
                exact absurd h2 (by simp)
        | error msg0 =>
          refine ⟨?_, ?_, ?_⟩
          · intro iid2 r _ h2 _ h4
            injection h2 with h2e
            subst h2e
            rw [hmint] at h4
            exact absurd h4 (by simp)
          · intro p hp _
            simp [get_token_for_repo, happ, hfi, hz, hmint, hp]
          · cases hpat : cfg.patToken with
            | some p =>
              simp [get_token_for_repo, happ, hfi, hz, hmint, hpat]
            | none =>
              constructor
              · intro _
                exact ⟨rfl, Or.inr (Or.inr (Or.inr ⟨iid, msg0, rfl, hmint⟩))⟩
              · intro _
                refine ⟨"Na GitHub App configure hai, na PAT token hai.", ?_⟩
                simp [get_token_for_repo, happ, hfi, hz, hmint, hpat]

/-- C8 witness: app configured, installation 5 discovered, mint succeeds
— the installation token is returned with method `github_app`. -/
theorem C8_token_resolution_witness :
    get_token_for_repo
      { appId := some "1", privateKey := some "k", patToken := some "PAT" }
      [] [] "acme" "webapp" (InstResp.status200 5) 0
      (MintResp.ok "ITOK" 4000)
      = .ok ("ITOK", "github_app") := by
  have h := (C8_token_resolution
    { appId := some "1", privateKey := some "k", patToken := some "PAT" }
    [] [] "acme" "webapp" (InstResp.status200 5) 0 (MintResp.ok "ITOK" 4000)
    (some 5) (by rfl)).1 5
    { token := "ITOK",
      cache := cacheInsert [] 5
        { token := "ITOK", serverExpiresAt := 4000, expiresAt := 3700 },
      fromCache := false }
    (by rfl) (by rfl) (by decide) (by rfl)
  exact h

/-- C3: `publish_node` performs a commit (and a push) only when at least
one accumulated fix has status `applied` or `fixed`; when no such fix
exists the publish is skipped and the repository state is returned
unchanged. -/
theorem C3_publish_guard (fixes : List FixRec) (branch repoUrl : String)
    (commitCount : Nat) (repo : RepoState) (staged : Bool)
    (pushToken : Option String) (pushOk : Bool) (pushStderr : String) :
    ((publish_node fixes branch repoUrl commitCount repo staged pushToken
          pushOk pushStderr).committed = true
        ∨ (publish_node fixes branch repoUrl commitCount repo staged
            pushToken pushOk pushStderr).pushPerformed = true →
      ∃ f ∈ fixes, f.status = "fixed" ∨ f.status = "applied")
    ∧ ((∀ f ∈ fixes, ¬(f.status = "fixed" ∨ f.status = "applied")) →
        (publish_node fixes branch repoUrl commitCount repo staged
          pushToken pushOk pushStderr).skipped = true
        ∧ (publish_node fixes branch repoUrl commitCount repo staged
            pushToken pushOk pushStderr).repo = repo
        ∧ (publish_node fixes branch repoUrl commitCount repo staged
            pushToken pushOk pushStderr).committed = false
        ∧ (publish_node fixes branch repoUrl commitCount repo staged
            pushToken pushOk pushStderr).pushPerformed = false) := by
  by_cases hfil :
      fixes.filter (fun f => f.status = "fixed" ∨ f.status = "applied") = []
  · have hout : publish_node fixes branch repoUrl commitCount repo staged
        pushToken pushOk pushStderr
        = { status := "completed", error := none,
            commit_count := commitCount, committed := false,
            pushPerformed := false, skipped := true, repo := repo } := by
      simp only [publish_node, hfil, List.map_nil, List.isEmpty_nil,
        if_true]
    constructor
    · intro hcom
      rw [hout] at hcom
      rcases hcom with hcom | hcom <;> exact absurd hcom (by simp)
    · intro _
      rw [hout]
      exact ⟨rfl, rfl, rfl, rfl⟩
  · constructor
    · intro _
      obtain ⟨x, hx⟩ := List.exists_mem_of_ne_nil _ hfil
      rw [List.mem_filter] at hx
      exact ⟨x, hx.1, of_decide_eq_true hx.2⟩
    · intro hall
      exfalso
      apply hfil
      rw [List.filter_eq_nil_iff]
      intro a ha
      simpa using hall a ha

/-- C3 witness: one applied fix, staged changes present, push succeeding
— the node commits, so an applied/fixed fix exists. -/
theorem C3_publish_guard_witness :
    ∃ f ∈ [c3AppliedFix], f.status = "fixed" ∨ f.status = "applied" :=
  (C3_publish_guard [c3AppliedFix] "TEAMX_ALICE_AI_Fix"
    "https://github.com/acme/webapp" 0 initialRepoState true none true
    "").1 (Or.inl (by decide))

/- ── Invariant: `all_passed` tracks the latest exit code ─────── -/

theorem runTestsStep_inv (env : RunEnv) (s : PipeState) :
    ((runTestsStep env s).all_passed = true
      ↔ (runTestsStep env s).lastExit = 0) := by
  simp [runTestsStep]

theorem verifyStep_inv (env : RunEnv) (s : PipeState) :
    ((verifyStep env s).all_passed = true
      ↔ (verifyStep env s).lastExit = 0) := by
  simp [verifyStep, runTestsStep]

theorem publishStep_all_passed (env : RunEnv) (u b : String)
    (s : PipeState) : (publishStep env u b s).all_passed = s.all_passed :=
  rfl

theorem publishStep_lastExit (env : RunEnv) (u b : String)
    (s : PipeState) : (publishStep env u b s).lastExit = s.lastExit := rfl

theorem analyzeStep_all_passed (env : RunEnv) (s : PipeState) :
    (analyzeStep env s).all_passed = s.all_passed := rfl

theorem analyzeStep_lastExit (env : RunEnv) (s : PipeState) :
    (analyzeStep env s).lastExit = s.lastExit := rfl

theorem healLoop_inv (env : RunEnv) (u b : String) (m : Nat) :
    ∀ fuel s, (s.all_passed = true ↔ s.lastExit = 0) →
      ((healLoop env u b m fuel s).all_passed = true
        ↔ (healLoop env u b m fuel s).lastExit = 0) := by
  intro fuel
  induction fuel with
  | zero => intro s h; exact h
  | succ n ih =>
    intro s _
    simp only [healLoop]
    by_cases hp :
        (verifyStep env (applyFixStep env (generateFixStep env s))).all_passed
          = true
    · rw [if_pos hp]
      rw [publishStep_all_passed, publishStep_lastExit]
      exact verifyStep_inv env _
    · rw [if_neg hp]
      by_cases hit :
          m < (verifyStep env (applyFixStep env (generateFixStep env s))).iteration
      · rw [if_pos hit]
        by_cases hha :
            hasApplied
              (verifyStep env (applyFixStep env (generateFixStep env s))).fixes
              = true
        · rw [if_pos hha, publishStep_all_passed, publishStep_lastExit]
          exact verifyStep_inv env _
        · rw [if_neg hha]
          exact verifyStep_inv env _
      · rw [if_neg hit]
        apply ih
        rw [analyzeStep_all_passed, analyzeStep_lastExit]
        exact verifyStep_inv env _

theorem runGraphFinalState_inv (env : RunEnv) (u b : String) (m : Nat) :
    ((runGraphFinalState env u b m).all_passed = true
      ↔ (runGraphFinalState env u b m).lastExit = 0) := by
  simp only [runGraphFinalState]
  have hbase :
      ((analyzeStep env (runTestsStep env initialPipeState)).all_passed
          = true
        ↔ (analyzeStep env (runTestsStep env initialPipeState)).lastExit
          = 0) := by
    rw [analyzeStep_all_passed, analyzeStep_lastExit]
    exact runTestsStep_inv env _
  split
  · exact hbase
  · exact healLoop_inv env u b m (m + 1) _ hbase

/-- C1: the results document records `PASSED` exactly when the last test
execution — the initial RUN_TESTS or the latest VERIFY — exited with
code 0; in particular a non-zero exit never yields `PASSED`, regardless
of how many failures the parser extracted (the `parsed` oracle is
unconstrained). -/
theorem C1_final_status_iff_exit_zero (env : RunEnv)
    (repoUrl team leader : String) (maxRetries : Nat) (t0 t1 : ℚ) :
    ((runGraph env repoUrl team leader maxRetries t0 t1).doc.final_status
        = "PASSED"
      ↔ (runGraph env repoUrl team leader maxRetries t0 t1).state.lastExit
        = 0) := by
  have hinv := runGraphFinalState_inv env repoUrl
    (make_branch_name team leader) maxRetries
  show ((if (runGraphFinalState env repoUrl (make_branch_name team leader)
        maxRetries).all_passed then "PASSED" else "FAILED") = "PASSED"
      ↔ _)
  cases hb : (runGraphFinalState env repoUrl (make_branch_name team leader)
      maxRetries).all_passed with
  | true =>
    rw [hb] at hinv
    rw [if_pos rfl]
    exact ⟨fun _ => hinv.mp rfl, fun _ => rfl⟩
  | false =>
    rw [hb] at hinv
    rw [if_neg (by simp)]
    constructor
    · intro hcontr
      exact absurd hcontr (by decide)
    · intro hz
      exact absurd (hinv.mpr hz) (by simp)

/- ── The synthetic-fallback message characterization ─────────── -/

theorem firstErrorLineAux_eq_keywordList (lines : List String) :
    firstErrorLineAux lines
      = ((lines.filterMap (fun line =>
          let stripped := pyStrip line
          if ¬stripped = "" ∧
              errorKeywords.any (fun kw => strContains (pyLower stripped) kw)
          then some stripped else none)).head?).map
          (fun s => pyTake s 300) := by
  induction lines with
  | nil => rfl
  | cons l t ih =>
    simp only [firstErrorLineAux, List.filterMap_cons]
    by_cases hs : pyStrip l = ""
    · simp [hs, ih]
    · by_cases hkw : errorKeywords.any
        (fun kw => strContains (pyLower (pyStrip l)) kw) = true
      · simp [hs, hkw]
      · simp [hs, hkw, ih]

theorem firstErrorLineAux_eq_keyword (out : String) :
    firstErrorLineAux (pySplitlines out)
      = (firstKeywordLine out).map (fun s => pyTake s 300) :=
  firstErrorLineAux_eq_keywordList (pySplitlines out)

/-- C2 (amended): when the runner output defeats every structured
strategy — no log-parser record, no Jest match, no ESLint match — the
parser produces exactly one synthetic Failure, with line 0, with file
the first source-path-looking substring or `unknown`, and with the error
message taken from the first line containing one of
`error|fail|exception|traceback|assert` whenever such a line exists —
but only when the raw output contains a non-whitespace character.  The
runner's exit code never reaches the parser, so for whitespace-only
output of a failing run the parser returns the empty list (see the
counterexample). -/
theorem C2_synthetic_fallback (out repoPath : String)
    (fs : List (String × String))
    (h1 : logParserParse out = [])
    (h2 : parse_jest_failures out fs = [])
    (h3 : parse_eslint_failures out = [])
    (h4 : ¬pyStrip out = "") :
    parse_test_failures out repoPath fs = [syntheticFailure out]
    ∧ (syntheticFailure out).line = 0
    ∧ (syntheticFailure out).file = (fileRefSearch out).getD "unknown"
    ∧ (∀ ln, firstKeywordLine out = some ln →
        (syntheticFailure out).error_message = pyTake ln 300) := by
  refine ⟨?_, rfl, rfl, ?_⟩
  · simp only [parse_test_failures, h1]
    have hpl : processLogErrors [] repoPath out fs = [] := rfl
    rw [hpl]
    simp only [List.isEmpty_nil, if_true, h2, h3]
    rw [if_pos ⟨trivial, h4⟩]
  · intro ln hln
    show extract_first_error_line out = pyTake ln 300
    unfold extract_first_error_line
    rw [firstErrorLineAux_eq_keyword, hln]
    rfl

/-- C2 counterexample: the raw output `"\n"` — exactly what
`run_tests_node` assembles from an empty stdout and stderr of a failing
run (exit code 1) — defeats every strategy, and the synthetic fallback
is guarded by `test_output.strip()` rather than by the exit code (which
the parser never receives), so the parser returns the empty list for a
failing run. -/
theorem C2_counterexample :
    parse_test_failures "\n" "/repo" [] = [] := by decide

/-- C2 witness: a concrete failing output with a keyword line and a
source path, on which no structured strategy fires. -/
theorem C2_synthetic_fallback_witness :
    parse_test_failures c2WitnessOutput "/repo" []
        = [syntheticFailure c2WitnessOutput]
    ∧ (syntheticFailure c2WitnessOutput).line = 0
    ∧ (syntheticFailure c2WitnessOutput).file
        = (fileRefSearch c2WitnessOutput).getD "unknown"
    ∧ (∀ ln, firstKeywordLine c2WitnessOutput = some ln →
        (syntheticFailure c2WitnessOutput).error_message = pyTake ln 300) :=
  C2_synthetic_fallback c2WitnessOutput "/repo" [] (by decide) (by decide)
    (by decide) (by decide)

/-- C10: when any pipeline stage raises, `run_pipeline` does not
propagate the exception — it builds, persists and returns a results
document whose `final_status` is `FAILED`, with a single `ERROR`
timeline event carrying the truncated exception text. -/
theorem C10_crash_yields_failed_doc (exc repoUrl team leader : String)
    (maxRetries : Nat) (t0 t1 : ℚ) :
    (run_pipeline (.error exc) repoUrl team leader maxRetries t0 t1).doc.final_status
        = "FAILED"
    ∧ (run_pipeline (.error exc) repoUrl team leader maxRetries t0 t1).persisted
        = true
    ∧ (run_pipeline (.error exc) repoUrl team leader maxRetries t0 t1).doc.timeline
        = [{ state := "ERROR", details := [("error", pyTake exc 300)] }] :=
  ⟨rfl, rfl, rfl⟩

end RiftSpec
